import Mathlib

/-!
Verification of the Tool Management Subsystem (src/tool_creation_tool.js).

The JavaScript code is shallowly embedded in Lean:

* `JSVal` models JavaScript values (numbers are modelled as integers; the
  schemas and arguments handled by the subsystem only use the modelled
  shapes).  Objects are modelled as ordered association lists of fields,
  matching JavaScript own-property insertion order.
* External collaborators (the Ollama chat model, the embedding provider,
  the Chroma vector store, and the JavaScript engine primitives
  `new Function` and the dynamic invocation of stored code) are modelled
  as oracle inputs carried by environment structures (`CreateEnv`,
  `ExecEnv`, `QueryEnv`).  Every theorem quantifies over these oracles, so
  it covers every possible collaborator behaviour.
* `JSON.stringify` / `JSON.parse` are modelled concretely by `strfTry`
  (drops `undefined`-valued members, escapes strings) and by the fuelled
  recursive-descent reader `jsonParse` (whitespace tolerant; numeric
  literals are modelled as integers, matching the `JSVal` number model).
* Thrown JavaScript exceptions are modelled by `JSOutcome.thrown`;
  messages keep the leading words of the original strings (quote
  punctuation inside messages is elided, which no claim depends on).
-/

/-- JSVal models a JavaScript value as handled by the tool subsystem. -/
inductive JSVal where
  | undefined
  | null
  | bool (b : Bool)
  | num (n : Int)
  | str (s : String)
  | arr (elems : List JSVal)
  | obj (fields : List (String × JSVal))

/-- JSOutcome models normal return versus a thrown exception. -/
inductive JSOutcome (α : Type) where
  | ret (v : α)
  | thrown (msg : String)

/-- Truthiness of a JavaScript value (`if (v)`), with integer numbers. -/
def truthy : JSVal → Bool
  | .undefined => false
  | .null => false
  | .bool b => b
  | .num n => decide (n ≠ 0)
  | .str s => decide (s ≠ "")
  | .arr _ => true
  | .obj _ => true

/-- Result of the `typeof` operator (`typeof null` is "object"). -/
def jsTypeof : JSVal → String
  | .undefined => "undefined"
  | .null => "object"
  | .bool _ => "boolean"
  | .num _ => "number"
  | .str _ => "string"
  | .arr _ => "object"
  | .obj _ => "object"

/-- Property read `v[k]` on a receiver that is not null/undefined; named,
non-index properties of primitives and arrays read as undefined. -/
def propD (v : JSVal) (k : String) : JSVal :=
  match v with
  | .obj fs => ((fs.find? (fun p => p.1 == k)).map (fun p => p.2)).getD .undefined
  | _ => .undefined

/-- Property read `v[k]` including the TypeError on null/undefined. -/
def jsMember (v : JSVal) (k : String) : JSOutcome JSVal :=
  match v with
  | .undefined => .thrown ("Cannot read properties of undefined (reading " ++ k ++ ")")
  | .null => .thrown ("Cannot read properties of null (reading " ++ k ++ ")")
  | _ => .ret (propD v k)

/-- JavaScript `a || b`. -/
def jsOr (a b : JSVal) : JSVal := if truthy a then a else b

/-- Digit character for a value below 10. -/
def digitChar10 (n : Nat) : Char := Char.ofNat (48 + n)

/-- Decimal digits of a natural number, most significant first; `fuel`
bounds the recursion and any `fuel > n` computes the digits exactly. -/
def natToChars (fuel : Nat) (n : Nat) : List Char :=
  match fuel with
  | 0 => []
  | fuel + 1 => if n < 10 then [digitChar10 n] else natToChars fuel (n / 10) ++ [digitChar10 (n % 10)]

/-- Decimal representation of a natural number. -/
def natChars (n : Nat) : List Char := natToChars (n + 1) n

/-- Decimal representation of an integer (JavaScript number-to-string for
the integral values the subsystem handles). -/
def intChars (n : Int) : List Char :=
  if n < 0 then '-' :: natChars (-n).toNat else natChars n.toNat

/-- Hexadecimal digit character (lower case letters). -/
def hexDigit (n : Nat) : Char := if n < 10 then Char.ofNat (48 + n) else Char.ofNat (87 + n)

/-- Value of a hexadecimal digit character, if it is one. -/
def hexVal (c : Char) : Option Nat :=
  if 48 ≤ c.toNat && c.toNat ≤ 57 then some (c.toNat - 48)
  else if 97 ≤ c.toNat && c.toNat ≤ 102 then some (c.toNat - 87)
  else if 65 ≤ c.toNat && c.toNat ≤ 70 then some (c.toNat - 55)
  else none

/-- JSON string escaping of one character, as produced by
`JSON.stringify`: quote and backslash get a backslash escape, control
characters a `u00XX` escape, all other characters stay as they are. -/
def escChar (c : Char) : List Char :=
  if c = '"' then ['\\', '"']
  else if c = '\\' then ['\\', '\\']
  else if c.toNat < 32 then ['\\', 'u', '0', '0', hexDigit (c.toNat / 16), hexDigit (c.toNat % 16)]
  else [c]

/-- JSON string escaping of a character list. -/
def escList : List Char → List Char
  | [] => []
  | c :: cs => escChar c ++ escList cs

mutual

/-- Model of `JSON.stringify`: `none` models the undefined result on an
undefined top-level value; inside arrays undefined serialises as null and
inside objects undefined-valued members are dropped, as in JavaScript. -/
def strfTry : JSVal → Option (List Char)
  | .undefined => none
  | .null => some (("null").data)
  | .bool true => some (("true").data)
  | .bool false => some (("false").data)
  | .num n => some (intChars n)
  | .str s => some ('"' :: (escList s.data ++ ['"']))
  | .arr l => some ('[' :: (strfElems l ++ [']']))
  | .obj fs => some ('{' :: (strfFields fs ++ ['}']))

/-- Serialisation of array elements, comma separated. -/
def strfElems : List JSVal → List Char
  | [] => []
  | v :: l =>
    (match strfTry v with
     | none => ("null").data
     | some sv => sv) ++ (if l.isEmpty then [] else ',' :: strfElems l)

/-- Serialisation of object members, comma separated, dropping members
whose value does not serialise. -/
def strfFields : List (String × JSVal) → List Char
  | [] => []
  | (k, v) :: fs =>
    match strfTry v with
    | none => strfFields fs
    | some sv =>
      let rest := strfFields fs
      ('"' :: (escList k.data ++ ('"' :: ':' :: sv))) ++ (if rest.isEmpty then [] else ',' :: rest)

end

/-- JSON serialisation as a string, `none` when undefined. -/
def jsonStringify (v : JSVal) : Option String := (strfTry v).map String.mk

/-- Serialisation defaulting to the empty string; in the embedding it is
only applied to objects, for which serialisation always succeeds. -/
def stringifyD (v : JSVal) : String := String.mk ((strfTry v).getD [])

/-- JSON whitespace. -/
def isJsonWs (c : Char) : Bool := c = ' ' || c = '\t' || c = '\n' || c = '\r'

/-- Skip JSON whitespace. -/
def skipWs (cs : List Char) : List Char := cs.dropWhile isJsonWs

/-- Decimal digit test. -/
def isDigitC (c : Char) : Bool := 48 ≤ c.toNat && c.toNat ≤ 57

/-- Numeric value of a digit list. -/
def digitsToNat (ds : List Char) : Nat := ds.foldl (fun a c => 10 * a + (c.toNat - 48)) 0

/-- Read a run of decimal digits. -/
def parseNat (cs : List Char) : Option (Nat × List Char) :=
  let ds := cs.takeWhile isDigitC
  if ds.isEmpty then none else some (digitsToNat ds, cs.dropWhile isDigitC)

/-- Read a JSON string body after the opening quote, undoing the escapes
accepted by `JSON.parse` and rejecting raw control characters. -/
def parseStrBody : List Char → Option (List Char × List Char)
  | [] => none
  | c :: rest =>
    if c = '"' then some ([], rest)
    else if c = '\\' then
      match rest with
      | [] => none
      | e :: rest2 =>
        if e = '"' then (parseStrBody rest2).map (fun p => ('"' :: p.1, p.2))
        else if e = '\\' then (parseStrBody rest2).map (fun p => ('\\' :: p.1, p.2))
        else if e = '/' then (parseStrBody rest2).map (fun p => ('/' :: p.1, p.2))
        else if e = 'n' then (parseStrBody rest2).map (fun p => ('\n' :: p.1, p.2))
        else if e = 't' then (parseStrBody rest2).map (fun p => ('\t' :: p.1, p.2))
        else if e = 'r' then (parseStrBody rest2).map (fun p => ('\r' :: p.1, p.2))
        else if e = 'b' then (parseStrBody rest2).map (fun p => (Char.ofNat 8 :: p.1, p.2))
        else if e = 'f' then (parseStrBody rest2).map (fun p => (Char.ofNat 12 :: p.1, p.2))
        else if e = 'u' then
          match rest2 with
          | a :: b :: c2 :: d :: rest3 =>
            (match hexVal a, hexVal b, hexVal c2, hexVal d with
             | some ha, some hb, some hc, some hd =>
               (parseStrBody rest3).map
                 (fun p => (Char.ofNat (((ha * 16 + hb) * 16 + hc) * 16 + hd) :: p.1, p.2))
             | _, _, _, _ => none)
          | _ => none
        else none
    else if c.toNat < 32 then none
    else (parseStrBody rest).map (fun p => (c :: p.1, p.2))

mutual

/-- Fuelled JSON value reader modelling `JSON.parse`. -/
def parseVal : Nat → List Char → Option (JSVal × List Char)
  | 0, _ => none
  | fuel + 1, cs =>
    match skipWs cs with
    | [] => none
    | c :: rest =>
      if c = 'n' then
        if (("ull").data).isPrefixOf rest then some (.null, rest.drop 3) else none
      else if c = 't' then
        if (("rue").data).isPrefixOf rest then some (.bool true, rest.drop 3) else none
      else if c = 'f' then
        if (("alse").data).isPrefixOf rest then some (.bool false, rest.drop 4) else none
      else if c = '"' then
        (parseStrBody rest).map (fun p => (.str (String.mk p.1), p.2))
      else if c = '[' then
        match skipWs rest with
        | [] => (parseElems fuel []).map (fun p => (.arr p.1, p.2))
        | d :: rest2 =>
          if d = ']' then some (.arr [], rest2)
          else (parseElems fuel (d :: rest2)).map (fun p => (.arr p.1, p.2))
      else if c = '{' then
        match skipWs rest with
        | [] => (parseFields fuel []).map (fun p => (.obj p.1, p.2))
        | d :: rest2 =>
          if d = '}' then some (.obj [], rest2)
          else (parseFields fuel (d :: rest2)).map (fun p => (.obj p.1, p.2))
      else if c = '-' then
        (parseNat rest).map (fun p => (.num (-(p.1 : Int)), p.2))
      else
        (parseNat (c :: rest)).map (fun p => (.num (p.1 : Int), p.2))

/-- Fuelled reader for the elements of a non-empty JSON array, after the
opening bracket. -/
def parseElems : Nat → List Char → Option (List JSVal × List Char)
  | 0, _ => none
  | fuel + 1, cs =>
    match parseVal fuel cs with
    | none => none
    | some (v, rest) =>
      match skipWs rest with
      | [] => none
      | d :: rest2 =>
        if d = ',' then
          match parseElems fuel rest2 with
          | none => none
          | some (l, rest3) => some (v :: l, rest3)
        else if d = ']' then some ([v], rest2)
        else none

/-- Fuelled reader for the members of a non-empty JSON object, after the
opening brace. -/
def parseFields : Nat → List Char → Option (List (String × JSVal) × List Char)
  | 0, _ => none
  | fuel + 1, cs =>
    match skipWs cs with
    | [] => none
    | c :: rest =>
      if c = '"' then
        match parseStrBody rest with
        | none => none
        | some (k, rest1) =>
          match skipWs rest1 with
          | [] => none
          | d :: rest2 =>
            if d = ':' then
              match parseVal fuel rest2 with
              | none => none
              | some (v, rest3) =>
                match skipWs rest3 with
                | [] => none
                | e :: rest4 =>
                  if e = ',' then
                    match parseFields fuel rest4 with
                    | none => none
                    | some (fs, rest5) => some ((String.mk k, v) :: fs, rest5)
                  else if e = '}' then some ([(String.mk k, v)], rest4)
                  else none
            else none
      else none

end

/-- Model of `JSON.parse`: read one value and require only trailing
whitespace after it. -/
def jsonParse (s : String) : Option JSVal :=
  match parseVal (s.data.length + 1) s.data with
  | some (v, rest) => if (skipWs rest).isEmpty then some v else none
  | none => none

mutual

/-- A value contains no undefined anywhere (undefined is what
`JSON.stringify` drops or rewrites, so such values are exactly the ones
whose serialisation is faithful). -/
def noUndef : JSVal → Bool
  | .undefined => false
  | .arr l => noUndefL l
  | .obj fs => noUndefF fs
  | _ => true

/-- No undefined in a list of values. -/
def noUndefL : List JSVal → Bool
  | [] => true
  | v :: l => noUndef v && noUndefL l

/-- No undefined among member values. -/
def noUndefF : List (String × JSVal) → Bool
  | [] => true
  | (_, v) :: fs => noUndef v && noUndefF fs

end

mutual

/-- String conversion of a value, as JavaScript `String(v)`. -/
def jsToString : JSVal → String
  | .undefined => "undefined"
  | .null => "null"
  | .bool true => "true"
  | .bool false => "false"
  | .num n => String.mk (intChars n)
  | .str s => s
  | .arr l => jsToStringL l
  | .obj _ => "[object Object]"

/-- Array-to-string: elements joined with commas, null/undefined as
empty. -/
def jsToStringL : List JSVal → String
  | [] => ""
  | v :: l =>
    (match v with
     | .undefined => ""
     | .null => ""
     | w => jsToString w) ++ (if l.isEmpty then "" else "," ++ jsToStringL l)

end

example : jsonParse ("\x7b\"a\":[1,-2,null],\"b\":\"x\"\x7d") =
    some (.obj [("a", .arr [.num 1, .num (-2), .null]), ("b", .str ("x"))]) := rfl

example : (strfTry (.obj [("a", .num 1), ("b", .undefined), ("c", .arr [.null])])).map String.mk =
    some ("\x7b\"a\":1,\"c\":[null]\x7d") := rfl

/-! Lemmas about the JSON model, leading to the serialise/parse
round-trip used by the schema persistence claims. -/

theorem charToNat_ofNat (n : Nat) (h : n < 55296) : (Char.ofNat n).toNat = n := by
  have hv : Nat.isValidChar n := Or.inl h
  simp only [Char.ofNat, hv, dif_pos]
  simp [Char.ofNatAux, Char.toNat, UInt32.toNat]

theorem charOfNat_toNat (c : Char) (h : c.toNat < 55296) : Char.ofNat c.toNat = c := by
  have hv : Nat.isValidChar c.toNat := Or.inl h
  apply Char.eq_of_val_eq
  simp only [Char.ofNat, hv, dif_pos]
  rfl

theorem toNat_digitChar10 (n : Nat) (h : n < 10) : (digitChar10 n).toNat = 48 + n := by
  simpa [digitChar10] using charToNat_ofNat (48 + n) (by omega)

theorem isDigitC_digitChar10 (n : Nat) (h : n < 10) : isDigitC (digitChar10 n) = true := by
  simp [isDigitC, toNat_digitChar10 n h]
  omega

theorem natToChars_digits :
    ∀ fuel n, n < fuel → ∀ c ∈ natToChars fuel n, isDigitC c = true := by
  intro fuel
  induction fuel with
  | zero => omega
  | succ fuel ih =>
    intro n hn c hc
    rw [natToChars] at hc
    by_cases h10 : n < 10
    · simp [h10] at hc
      subst hc
      exact isDigitC_digitChar10 n h10
    · simp [h10, List.mem_append] at hc
      rcases hc with hc | hc
      · exact ih (n / 10) (by omega) c hc
      · subst hc
        exact isDigitC_digitChar10 (n % 10) (by omega)

theorem natToChars_ne_nil : ∀ fuel n, n < fuel → natToChars fuel n ≠ [] := by
  intro fuel
  induction fuel with
  | zero => omega
  | succ fuel ih =>
    intro n hn
    rw [natToChars]
    by_cases h10 : n < 10
    · simp [h10]
    · simp [h10]

theorem digitsToNat_append_single (ds : List Char) (d : Char) :
    digitsToNat (ds ++ [d]) = 10 * digitsToNat ds + (d.toNat - 48) := by
  simp [digitsToNat, List.foldl_append]

theorem digitsToNat_natToChars :
    ∀ fuel n, n < fuel → digitsToNat (natToChars fuel n) = n := by
  intro fuel
  induction fuel with
  | zero => omega
  | succ fuel ih =>
    intro n hn
    rw [natToChars]
    by_cases h10 : n < 10
    · simp [h10, digitsToNat, toNat_digitChar10 n h10]
    · simp only [h10, if_false]
      rw [digitsToNat_append_single, ih (n / 10) (by omega),
        toNat_digitChar10 (n % 10) (by omega)]
      omega

theorem natChars_digits (n : Nat) : ∀ c ∈ natChars n, isDigitC c = true :=
  natToChars_digits (n + 1) n (by omega)

theorem natChars_ne_nil (n : Nat) : natChars n ≠ [] :=
  natToChars_ne_nil (n + 1) n (by omega)

theorem digitsToNat_natChars (n : Nat) : digitsToNat (natChars n) = n :=
  digitsToNat_natToChars (n + 1) n (by omega)

theorem takeWhile_all_append (p : Char → Bool) :
    ∀ ds rest, (∀ c ∈ ds, p c = true) →
      List.takeWhile p (ds ++ rest) = ds ++ List.takeWhile p rest := by
  intro ds
  induction ds with
  | nil => simp
  | cons c ds ih =>
    intro rest h
    have hc : p c = true := h c (by simp)
    simp [List.takeWhile, hc]
    exact ih rest (fun x hx => h x (by simp [hx]))

theorem dropWhile_all_append (p : Char → Bool) :
    ∀ ds rest, (∀ c ∈ ds, p c = true) →
      List.dropWhile p (ds ++ rest) = List.dropWhile p rest := by
  intro ds
  induction ds with
  | nil => simp
  | cons c ds ih =>
    intro rest h
    have hc : p c = true := h c (by simp)
    simp [List.dropWhile, hc]
    exact ih rest (fun x hx => h x (by simp [hx]))

/-- Head of the remaining input is not a decimal digit (trivially true for
empty input); this is what a serialised number is always followed by. -/
def notDigitHead : List Char → Bool
  | [] => true
  | c :: _ => !isDigitC c

theorem takeWhile_isDigitC_nil (rest : List Char) (h : notDigitHead rest = true) :
    List.takeWhile isDigitC rest = [] := by
  cases rest with
  | nil => rfl
  | cons c cs =>
    simp [notDigitHead] at h
    simp [List.takeWhile, h]

theorem dropWhile_isDigitC_self (rest : List Char) (h : notDigitHead rest = true) :
    List.dropWhile isDigitC rest = rest := by
  cases rest with
  | nil => rfl
  | cons c cs =>
    simp [notDigitHead] at h
    simp [List.dropWhile, h]

theorem notDigitHead_cons (c : Char) (cs : List Char) (h : isDigitC c = false) :
    notDigitHead (c :: cs) = true := by
  simp [notDigitHead, h]

theorem parseNat_natChars (n : Nat) (rest : List Char) (h : notDigitHead rest = true) :
    parseNat (natChars n ++ rest) = some (n, rest) := by
  have htw : List.takeWhile isDigitC (natChars n ++ rest) = natChars n := by
    rw [takeWhile_all_append isDigitC (natChars n) rest (natChars_digits n),
      takeWhile_isDigitC_nil rest h, List.append_nil]
  have hdw : List.dropWhile isDigitC (natChars n ++ rest) = rest := by
    rw [dropWhile_all_append isDigitC (natChars n) rest (natChars_digits n),
      dropWhile_isDigitC_self rest h]
  simp only [parseNat, htw, hdw]
  rw [if_neg (by simpa [List.isEmpty_iff] using natChars_ne_nil n)]
  rw [digitsToNat_natChars]

theorem hexVal_hexDigit : ∀ k, k < 16 → hexVal (hexDigit k) = some k := by decide

theorem parseStrBody_escList :
    ∀ s rest, parseStrBody (escList s ++ '"' :: rest) = some (s, rest) := by
  intro s
  induction s with
  | nil =>
    intro rest
    simp only [escList, List.nil_append]
    rw [parseStrBody.eq_def]
    simp
  | cons c s ih =>
    intro rest
    rw [escList, List.append_assoc]
    by_cases hq : c = '"'
    · subst hq
      simp only [escChar, if_pos rfl, List.cons_append, List.nil_append]
      rw [parseStrBody.eq_def]
      simp [ih rest]
    · by_cases hb : c = '\\'
      · subst hb
        simp only [escChar, if_neg (by decide : ¬ ('\\' : Char) = '"'), if_pos rfl,
          List.cons_append, List.nil_append]
        rw [parseStrBody.eq_def]
        simp [ih rest]
      · by_cases hlt : c.toNat < 32
        · have h16a : c.toNat / 16 < 16 := by omega
          have h16b : c.toNat % 16 < 16 := by omega
          simp only [escChar, hq, hb, hlt, if_true, if_false, ite_true, ite_false,
            List.cons_append, List.nil_append]
          rw [parseStrBody.eq_def]
          simp only [if_neg (by decide : ¬ ('\\' : Char) = '"'), if_pos rfl,
            if_neg (by decide : ¬ ('u' : Char) = '"'),
            if_neg (by decide : ¬ ('u' : Char) = '\\'),
            if_neg (by decide : ¬ ('u' : Char) = '/'),
            if_neg (by decide : ¬ ('u' : Char) = 'n'),
            if_neg (by decide : ¬ ('u' : Char) = 't'),
            if_neg (by decide : ¬ ('u' : Char) = 'r'),
            if_neg (by decide : ¬ ('u' : Char) = 'b'),
            if_neg (by decide : ¬ ('u' : Char) = 'f')]
          rw [show hexVal '0' = some 0 from by decide,
            hexVal_hexDigit (c.toNat / 16) h16a, hexVal_hexDigit (c.toNat % 16) h16b]
          simp only []
          rw [ih rest]
          have hval : ((0 * 16 + 0) * 16 + c.toNat / 16) * 16 + c.toNat % 16 = c.toNat := by
            omega
          rw [hval, charOfNat_toNat c (by omega)]
          rfl
        · simp only [escChar, hq, hb, hlt, if_false, ite_false, List.cons_append,
            List.nil_append]
          rw [parseStrBody.eq_def]
          simp [hq, hb, hlt, ih rest]

/-- The first character of a serialised JSON value: not whitespace and not
a closing bracket or brace. -/
def firstOk (c : Char) : Bool := !isJsonWs c && !(c = ']') && !(c = '}')

theorem isDigitC_ne (c d : Char) (h : isDigitC c = true) (hd : isDigitC d = false) :
    c ≠ d := by
  intro e
  subst e
  rw [h] at hd
  cases hd

theorem isDigitC_not_ws (c : Char) (h : isDigitC c = true) : isJsonWs c = false := by
  have h1 : c ≠ ' ' := isDigitC_ne c ' ' h (by decide)
  have h2 : c ≠ '\t' := isDigitC_ne c '\t' h (by decide)
  have h3 : c ≠ '\n' := isDigitC_ne c '\n' h (by decide)
  have h4 : c ≠ '\r' := isDigitC_ne c '\r' h (by decide)
  simp [isJsonWs, h1, h2, h3, h4]

theorem isDigitC_firstOk (c : Char) (h : isDigitC c = true) : firstOk c = true := by
  have h1 : c ≠ ']' := isDigitC_ne c ']' h (by decide)
  have h2 : c ≠ '}' := isDigitC_ne c '}' h (by decide)
  simp [firstOk, isDigitC_not_ws c h, h1, h2]

theorem firstOk_not_ws (c : Char) (h : firstOk c = true) : isJsonWs c = false := by
  simp [firstOk] at h
  simp [h.1.1]

theorem firstOk_ne_rb (c : Char) (h : firstOk c = true) : c ≠ ']' := by
  simp [firstOk] at h
  exact h.1.2

theorem firstOk_ne_rc (c : Char) (h : firstOk c = true) : c ≠ '}' := by
  simp [firstOk] at h
  exact h.2

theorem skipWs_cons_not_ws (c : Char) (cs : List Char) (h : isJsonWs c = false) :
    skipWs (c :: cs) = c :: cs := by
  simp [skipWs, List.dropWhile, h]

theorem strfTry_head (v : JSVal) (h : noUndef v = true) :
    ∃ c cs, strfTry v = some (c :: cs) ∧ firstOk c = true := by
  cases v with
  | undefined => simp [noUndef] at h
  | null => exact ⟨'n', _, rfl, by decide⟩
  | bool b =>
    cases b with
    | false => exact ⟨'f', _, rfl, by decide⟩
    | true => exact ⟨'t', _, rfl, by decide⟩
  | num n =>
    by_cases hneg : n < 0
    · refine ⟨'-', natChars (-n).toNat, ?_, by decide⟩
      simp [strfTry, intChars, hneg]
    · rcases he : natChars n.toNat with _ | ⟨c, cs⟩
      · exact absurd he (natChars_ne_nil n.toNat)
      · refine ⟨c, cs, ?_, ?_⟩
        · simp [strfTry, intChars, hneg, he]
        · exact isDigitC_firstOk c (natChars_digits n.toNat c (by rw [he]; simp))
  | str s => exact ⟨'"', _, rfl, by decide⟩
  | arr l => exact ⟨'[', _, rfl, by decide⟩
  | obj fs => exact ⟨'{', _, rfl, by decide⟩

theorem parseVal_digit_head (fuel : Nat) (c : Char) (cs : List Char)
    (h : isDigitC c = true) :
    parseVal (fuel + 1) (c :: cs) =
      (parseNat (c :: cs)).map (fun p => (.num (p.1 : Int), p.2)) := by
  rw [parseVal.eq_def]
  dsimp only
  rw [skipWs_cons_not_ws c cs (isDigitC_not_ws c h)]
  simp only [if_neg (isDigitC_ne c 'n' h (by decide)),
    if_neg (isDigitC_ne c 't' h (by decide)),
    if_neg (isDigitC_ne c 'f' h (by decide)),
    if_neg (isDigitC_ne c '"' h (by decide)),
    if_neg (isDigitC_ne c '[' h (by decide)),
    if_neg (isDigitC_ne c '{' h (by decide)),
    if_neg (isDigitC_ne c '-' h (by decide))]

theorem parseVal_intChars (fuel : Nat) (n : Int) (rest : List Char)
    (hnd : notDigitHead rest = true) :
    parseVal (fuel + 1) (intChars n ++ rest) = some (.num n, rest) := by
  by_cases hneg : n < 0
  · simp only [intChars, if_pos hneg, List.cons_append]
    rw [parseVal.eq_def]
    dsimp only
    rw [skipWs_cons_not_ws _ _ (by decide)]
    simp only [if_neg (by decide : ¬ ('-' : Char) = 'n'),
      if_neg (by decide : ¬ ('-' : Char) = 't'),
      if_neg (by decide : ¬ ('-' : Char) = 'f'),
      if_neg (by decide : ¬ ('-' : Char) = '"'),
      if_neg (by decide : ¬ ('-' : Char) = '['),
      if_neg (by decide : ¬ ('-' : Char) = '{'),
      if_pos rfl]
    rw [parseNat_natChars (-n).toNat rest hnd]
    have hcast : (((-n).toNat : Int)) = -n := Int.toNat_of_nonneg (by omega)
    simp [hcast]
  · rcases he : natChars n.toNat with _ | ⟨c, cs⟩
    · exact absurd he (natChars_ne_nil n.toNat)
    · have hdig : isDigitC c = true := natChars_digits n.toNat c (by rw [he]; simp)
      have hshape : intChars n ++ rest = c :: (cs ++ rest) := by
        simp [intChars, hneg, he]
      rw [hshape, parseVal_digit_head fuel c (cs ++ rest) hdig]
      have hback : c :: (cs ++ rest) = natChars n.toNat ++ rest := by
        rw [he]; rfl
      rw [hback, parseNat_natChars n.toNat rest hnd]
      have hcast : ((n.toNat : Int)) = n := Int.toNat_of_nonneg (by omega)
      simp [hcast]

theorem noUndefL_cons {v : JSVal} {l : List JSVal} (h : noUndefL (v :: l) = true) :
    noUndef v = true ∧ noUndefL l = true := by
  simpa [noUndefL, Bool.and_eq_true] using h

theorem noUndefF_cons {k : String} {v : JSVal} {fs : List (String × JSVal)}
    (h : noUndefF ((k, v) :: fs) = true) : noUndef v = true ∧ noUndefF fs = true := by
  simpa [noUndefF, Bool.and_eq_true] using h

theorem strfFields_cons_ne_nil (k : String) (v : JSVal) (fs : List (String × JSVal))
    (h : noUndef v = true) : strfFields ((k, v) :: fs) ≠ [] := by
  obtain ⟨c0, cs0, hs, _⟩ := strfTry_head v h
  simp [strfFields, hs]

theorem parseVal_arr_head (fuel : Nat) (cs : List Char) :
    parseVal (fuel + 1) ('[' :: cs) =
      (match skipWs cs with
       | [] => (parseElems fuel []).map (fun p => (JSVal.arr p.1, p.2))
       | d :: rest2 =>
         if d = ']' then some (.arr [], rest2)
         else (parseElems fuel (d :: rest2)).map (fun p => (JSVal.arr p.1, p.2))) := by
  rw [parseVal.eq_def]
  dsimp only
  rw [skipWs_cons_not_ws _ _ (by decide)]
  simp

theorem parseVal_obj_head (fuel : Nat) (cs : List Char) :
    parseVal (fuel + 1) ('{' :: cs) =
      (match skipWs cs with
       | [] => (parseFields fuel []).map (fun p => (JSVal.obj p.1, p.2))
       | d :: rest2 =>
         if d = '}' then some (.obj [], rest2)
         else (parseFields fuel (d :: rest2)).map (fun p => (JSVal.obj p.1, p.2))) := by
  rw [parseVal.eq_def]
  dsimp only
  rw [skipWs_cons_not_ws _ _ (by decide)]
  simp

theorem parseVal_str_head (fuel : Nat) (cs : List Char) :
    parseVal (fuel + 1) ('"' :: cs) =
      (parseStrBody cs).map (fun p => (JSVal.str (String.mk p.1), p.2)) := by
  rw [parseVal.eq_def]
  dsimp only
  rw [skipWs_cons_not_ws _ _ (by decide)]
  simp

theorem parse_strf_mut : ∀ fuel : Nat,
    (∀ v out rest, noUndef v = true → strfTry v = some out → out.length ≤ fuel →
      notDigitHead rest = true → parseVal fuel (out ++ rest) = some (v, rest)) ∧
    (∀ l rest, l ≠ [] → noUndefL l = true → (strfElems l).length + 1 ≤ fuel →
      parseElems fuel (strfElems l ++ ']' :: rest) = some (l, rest)) ∧
    (∀ fs rest, fs ≠ [] → noUndefF fs = true → (strfFields fs).length + 1 ≤ fuel →
      parseFields fuel (strfFields fs ++ '}' :: rest) = some (fs, rest)) := by
  intro fuel
  induction fuel with
  | zero =>
    refine ⟨?_, ?_, ?_⟩
    · intro v out rest hnu hs hlen _
      obtain ⟨c, cs, hs2, _⟩ := strfTry_head v hnu
      rw [hs] at hs2
      have hout : out = c :: cs := Option.some.inj hs2
      subst hout
      simp at hlen
    · intro l rest hne hnu hlen
      omega
    · intro fs rest hne hnu hlen
      omega
  | succ fuel ih =>
    obtain ⟨ihV, ihE, ihF⟩ := ih
    refine ⟨?_, ?_, ?_⟩
    · intro v out rest hnu hs hlen hnd
      cases v with
      | undefined => simp [noUndef] at hnu
      | null =>
        simp only [strfTry, Option.some.injEq] at hs
        subst hs
        rw [parseVal.eq_def]
        dsimp only
        rw [List.cons_append, skipWs_cons_not_ws _ _ (by decide)]
        simp [List.isPrefixOf]
      | bool b =>
        cases b with
        | false =>
          simp only [strfTry, Option.some.injEq] at hs
          subst hs
          rw [parseVal.eq_def]
          dsimp only
          rw [List.cons_append, skipWs_cons_not_ws _ _ (by decide)]
          simp [List.isPrefixOf]
        | true =>
          simp only [strfTry, Option.some.injEq] at hs
          subst hs
          rw [parseVal.eq_def]
          dsimp only
          rw [List.cons_append, skipWs_cons_not_ws _ _ (by decide)]
          simp [List.isPrefixOf]
      | num n =>
        simp only [strfTry, Option.some.injEq] at hs
        subst hs
        exact parseVal_intChars fuel n rest hnd
      | str s =>
        simp only [strfTry, Option.some.injEq] at hs
        subst hs
        rw [List.cons_append, parseVal_str_head]
        rw [List.append_assoc]
        rw [show (['"'] ++ rest : List Char) = '"' :: rest from rfl]
        rw [parseStrBody_escList s.data rest]
        rfl
      | arr l =>
        simp only [strfTry, Option.some.injEq] at hs
        subst hs
        rw [List.cons_append, parseVal_arr_head]
        rw [List.append_assoc]
        rw [show ([']'] ++ rest : List Char) = ']' :: rest from rfl]
        cases l with
        | nil =>
          rw [show strfElems [] = [] from rfl, List.nil_append,
            skipWs_cons_not_ws _ _ (by decide)]
          simp
        | cons v0 l' =>
          simp only [noUndef] at hnu
          obtain ⟨hv0, hl'⟩ := noUndefL_cons hnu
          obtain ⟨c0, cs0, hsv0, hfok⟩ := strfTry_head v0 hv0
          have hlen2 : (strfElems (v0 :: l')).length + 1 ≤ fuel := by
            simp [List.length_append] at hlen
            omega
          have hsh : strfElems (v0 :: l') ++ ']' :: rest =
              c0 :: (cs0 ++ ((if l'.isEmpty then [] else ',' :: strfElems l') ++ ']' :: rest)) := by
            rw [strfElems, hsv0]
            simp [List.append_assoc]
          rw [hsh, skipWs_cons_not_ws _ _ (firstOk_not_ws c0 hfok)]
          dsimp only
          rw [if_neg (by simpa using firstOk_ne_rb c0 hfok)]
          rw [← hsh, ihE (v0 :: l') rest (by simp) hnu hlen2]
          rfl
      | obj fs =>
        simp only [strfTry, Option.some.injEq] at hs
        subst hs
        rw [List.cons_append, parseVal_obj_head]
        rw [List.append_assoc]
        rw [show (['}'] ++ rest : List Char) = '}' :: rest from rfl]
        cases fs with
        | nil =>
          rw [show strfFields [] = [] from rfl, List.nil_append,
            skipWs_cons_not_ws _ _ (by decide)]
          simp
        | cons f0 fs' =>
          obtain ⟨k, v0⟩ := f0
          simp only [noUndef] at hnu
          obtain ⟨hv0, hfs'⟩ := noUndefF_cons hnu
          have hlen2 : (strfFields ((k, v0) :: fs')).length + 1 ≤ fuel := by
            simp [List.length_append] at hlen
            omega
          obtain ⟨c0, cs0, hsv0, hfok⟩ := strfTry_head v0 hv0
          have hsh : strfFields ((k, v0) :: fs') ++ '}' :: rest =
              '"' :: ((escList k.data ++ ('"' :: ':' :: (c0 :: cs0))) ++
                ((if (strfFields fs').isEmpty then [] else ',' :: strfFields fs') ++
                  '}' :: rest)) := by
            rw [strfFields, hsv0]
            simp [List.append_assoc]
          rw [hsh, skipWs_cons_not_ws _ _ (by decide)]
          dsimp only
          rw [if_neg (by decide : ¬ ('"' : Char) = '}')]
          rw [← hsh, ihF ((k, v0) :: fs') rest (by simp) hnu hlen2]
          rfl
    · intro l rest hne hnu hlen
      cases l with
      | nil => exact absurd rfl hne
      | cons v0 l' =>
        obtain ⟨hv0, hl'⟩ := noUndefL_cons hnu
        obtain ⟨c0, cs0, hsv0, hfok⟩ := strfTry_head v0 hv0
        rw [parseElems.eq_def]
        dsimp only
        cases l' with
        | nil =>
          have hsh : strfElems [v0] ++ ']' :: rest = (c0 :: cs0) ++ (']' :: rest) := by
            simp [strfElems, hsv0]
          have hl1 : (c0 :: cs0).length ≤ fuel := by
            have h2 := congrArg List.length hsh
            simp [List.length_append] at h2 hlen ⊢
            omega
          rw [hsh, ihV v0 (c0 :: cs0) (']' :: rest) hv0 hsv0 hl1
            (notDigitHead_cons _ _ (by decide))]
          dsimp only
          rw [skipWs_cons_not_ws _ _ (by decide)]
          dsimp only
          rw [if_neg (by decide : ¬ (']' : Char) = ','), if_pos rfl]
        | cons v1 l'' =>
          have hsh : strfElems (v0 :: v1 :: l'') ++ ']' :: rest =
              (c0 :: cs0) ++ (',' :: (strfElems (v1 :: l'') ++ ']' :: rest)) := by
            rw [strfElems, hsv0]
            simp [List.append_assoc]
          have hlens := congrArg List.length hsh
          have hl1 : (c0 :: cs0).length ≤ fuel := by
            simp [List.length_append] at hlens hlen ⊢
            omega
          have hl2 : (strfElems (v1 :: l'')).length + 1 ≤ fuel := by
            simp [List.length_append] at hlens hlen ⊢
            omega
          rw [hsh, ihV v0 (c0 :: cs0) _ hv0 hsv0 hl1
            (notDigitHead_cons _ _ (by decide))]
          dsimp only
          rw [skipWs_cons_not_ws _ _ (by decide)]
          dsimp only
          rw [if_pos rfl]
          rw [ihE (v1 :: l'') rest (by simp) hl' hl2]
    · intro fs rest hne hnu hlen
      cases fs with
      | nil => exact absurd rfl hne
      | cons f0 fs' =>
        obtain ⟨k, v0⟩ := f0
        obtain ⟨hv0, hfs'⟩ := noUndefF_cons hnu
        obtain ⟨c0, cs0, hsv0, hfok⟩ := strfTry_head v0 hv0
        rw [parseFields.eq_def]
        dsimp only
        have hsh : strfFields ((k, v0) :: fs') ++ '}' :: rest =
            '"' :: (escList k.data ++ ('"' :: (':' :: ((c0 :: cs0) ++
              ((if (strfFields fs').isEmpty then [] else ',' :: strfFields fs') ++
                '}' :: rest))))) := by
          rw [strfFields, hsv0]
          simp [List.append_assoc]
        rw [hsh, skipWs_cons_not_ws _ _ (by decide)]
        dsimp only
        simp only [reduceIte]
        rw [parseStrBody_escList k.data _]
        dsimp only
        rw [skipWs_cons_not_ws _ _ (by decide)]
        dsimp only
        simp only [reduceIte]
        cases fs' with
        | nil =>
          have hl1 : (c0 :: cs0).length ≤ fuel := by
            have h2 := congrArg List.length hsh
            simp [List.length_append] at h2 hlen ⊢
            omega
          simp only [show strfFields ([] : List (String × JSVal)) = [] from rfl,
            List.isEmpty_nil]
          simp only [reduceIte, List.nil_append]
          rw [ihV v0 (c0 :: cs0) ('}' :: rest) hv0 hsv0 hl1
            (notDigitHead_cons _ _ (by decide))]
          dsimp only
          rw [skipWs_cons_not_ws _ _ (by decide)]
          dsimp only
          rw [if_neg (by decide : ¬ ('}' : Char) = ',')]
          rfl
        | cons f1 fs'' =>
          obtain ⟨k1, v1⟩ := f1
          have hv1 : noUndef v1 = true := (noUndefF_cons hfs').1
          have hfne : strfFields ((k1, v1) :: fs'') ≠ [] :=
            strfFields_cons_ne_nil k1 v1 fs'' hv1
          have hie : (strfFields ((k1, v1) :: fs'')).isEmpty = false := by
            rcases he2 : strfFields ((k1, v1) :: fs'') with _ | _
            · exact absurd he2 hfne
            · rfl
          have hif : (if (strfFields ((k1, v1) :: fs'')).isEmpty then ([] : List Char)
              else ',' :: strfFields ((k1, v1) :: fs'')) =
              ',' :: strfFields ((k1, v1) :: fs'') := by
            rw [hie]
            rfl
          rw [hif]
          rw [show ((',' :: strfFields ((k1, v1) :: fs'')) ++ '}' :: rest : List Char) =
              ',' :: (strfFields ((k1, v1) :: fs'') ++ '}' :: rest) from by simp]
          have hlens := congrArg List.length hsh
          have hl1 : (c0 :: cs0).length ≤ fuel := by
            simp [List.length_append, hie] at hlens hlen ⊢
            omega
          have hl2 : (strfFields ((k1, v1) :: fs'')).length + 1 ≤ fuel := by
            simp [List.length_append, hie] at hlens hlen ⊢
            omega
          rw [ihV v0 (c0 :: cs0) _ hv0 hsv0 hl1
            (notDigitHead_cons _ _ (by decide))]
          dsimp only
          rw [skipWs_cons_not_ws _ _ (by decide)]
          dsimp only
          rw [if_pos rfl]
          rw [ihF ((k1, v1) :: fs'') rest (by simp) hfs' hl2]

theorem jsonParse_stringifyD (v : JSVal) (h : noUndef v = true) :
    jsonParse (stringifyD v) = some v := by
  obtain ⟨c, cs, hs, _⟩ := strfTry_head v h
  have hout : stringifyD v = String.mk (c :: cs) := by
    rw [stringifyD, hs]
    rfl
  rw [hout, jsonParse]
  have hdata : (String.mk (c :: cs)).data = c :: cs := rfl
  rw [hdata]
  have hfeed : (c :: cs : List Char) = (c :: cs) ++ [] := by simp
  nth_rewrite 2 [hfeed]
  rw [(parse_strf_mut ((c :: cs).length + 1)).1 v (c :: cs) [] h hs (by omega) (by decide)]
  rfl

/-! Embedding of the Tool Management Subsystem itself
(src/tool_creation_tool.js). -/

/-- ASCII whitespace for JavaScript `trim` and the regex class `\s`. -/
def isJsWsB (c : Char) : Bool :=
  c = ' ' || c = '\t' || c = '\n' || c = '\r' || c = Char.ofNat 11 || c = Char.ofNat 12

/-- JavaScript `String.prototype.trim` on character lists. -/
def trimChars (cs : List Char) : List Char :=
  ((cs.dropWhile isJsWsB).reverse.dropWhile isJsWsB).reverse

/-- JavaScript `String.prototype.trim`. -/
def trimS (s : String) : String := String.mk (trimChars s.data)

/-- The three-backtick fence. -/
def fenceChars : List Char := ("```").data

/-- First alternative of the fence-stripping regex, anchored at the start:
a fence, an optional language tag, then any whitespace run. -/
def stripLeadFence (cs : List Char) : List Char :=
  if fenceChars.isPrefixOf cs then
    let r := cs.drop 3
    let r2 := if (("javascript").data).isPrefixOf r then r.drop 10
              else if (("js").data).isPrefixOf r then r.drop 2
              else r
    r2.dropWhile isJsWsB
  else cs

/-- Second alternative of the fence-stripping regex: a fence followed by
only whitespace up to the end of the string. -/
def isClosingFenceAt (cs : List Char) : Bool :=
  fenceChars.isPrefixOf cs && (cs.drop 3).all isJsWsB

/-- Remove the leftmost closing fence (and everything after it). -/
def dropClosingFence : List Char → List Char
  | [] => []
  | c :: rest => if isClosingFenceAt (c :: rest) then [] else c :: dropClosingFence rest

/-- Model of `code.replace(RE_FENCES_GLOBAL, "")` from
`sanitizeGeneratedCode`: the anchored opening-fence alternative can only
match at position zero, and afterwards the only further match is the
leftmost closing fence. -/
def stripFences (cs : List Char) : List Char := dropClosingFence (stripLeadFence cs)

/-- The token `function` followed by at least one whitespace character. -/
def startsFunctionWs (cs : List Char) : Bool :=
  (("function").data).isPrefixOf cs &&
    (match cs.drop 8 with
     | [] => false
     | c :: _ => isJsWsB c)

/-- Whether the anchored regex for a function head (an optional `async`
prefix, then `function` and whitespace) matches at the very start. -/
def startsFuncTok (cs : List Char) : Bool :=
  startsFunctionWs cs ||
  ((("async").data).isPrefixOf cs &&
    (match cs.drop 5 with
     | [] => false
     | c :: rest2 => isJsWsB c && startsFunctionWs ((c :: rest2).dropWhile isJsWsB)))

/-- Model of `String.prototype.search` with the anchored function-head
regex: the index of the first position where the regex matches; since the
pattern is anchored, a match can only be found at index zero. -/
def searchFuncTok (cs : List Char) : Option Nat :=
  if startsFuncTok cs then some 0 else none

/-- The startsWith test of sanitizeGeneratedCode: the text already begins
with `function <name>` or `async function <name>`. -/
def expectedStart (s : List Char) (functionName : String) : Bool :=
  ((("function ").data ++ functionName.data).isPrefixOf s) ||
  ((("async function ").data ++ functionName.data).isPrefixOf s)

/-- ToolCreationManager.sanitizeGeneratedCode (character-list core):
strip fences, trim, and if the text does not already start with the
correctly named function, keep the text from the search result when the
function-head regex is found, otherwise wrap the text in a function
shell named after the tool. -/
def sanitizeChars (code : List Char) (functionName : String) : List Char :=
  let s := trimChars (stripFences code)
  if expectedStart s functionName then s
  else
    match searchFuncTok s with
    | some i => s.drop i
    | none =>
      ("function ").data ++ functionName.data ++ (("(params) \x7b\n").data) ++ s ++
        (("\n\x7d").data)

/-- ToolCreationManager.sanitizeGeneratedCode. -/
def sanitizeGeneratedCode (code : String) (functionName : String) : String :=
  String.mk (sanitizeChars code.data functionName)

/-- The signature validation of createTool step 4: the sanitized text must
start with `function <name>(params)` or `async function <name>(params)`. -/
def validSignature (code name : String) : Bool :=
  ((("function ").data ++ name.data ++ (("(params)").data)).isPrefixOf code.data) ||
  ((("async function ").data ++ name.data ++ (("(params)").data)).isPrefixOf code.data)

/-- First character class of the tool-name pattern. -/
def isIdentStart (c : Char) : Bool :=
  (65 ≤ c.toNat && c.toNat ≤ 90) || (97 ≤ c.toNat && c.toNat ≤ 122) || c = '_'

/-- Later character class of the tool-name pattern. -/
def isIdentChar (c : Char) : Bool := isIdentStart c || isDigitC c

/-- The tool-name test from createTool. -/
def validName (s : String) : Bool :=
  match s.data with
  | [] => false
  | c :: cs => isIdentStart c && cs.all isIdentChar

/-- Name of the reserved bootstrap tool. -/
def reservedName : String := "tool_creation"

/-- Static description of the reserved tool. -/
def reservedDescription : String :=
  "Define and create a new tool (JavaScript function) that the LLM can use later. Takes the desired tool name, description, and parameter schema."

/-- Static parameter schema of the reserved tool, transcribed from
TOOL_CREATION_TOOL_DEFINITION. -/
def reservedParams : JSVal :=
  .obj [("type", .str ("object")),
        ("properties", .obj [
          ("new_tool_name", .obj [("type", .str ("string")),
            ("description", .str ("The name for the new tool function (use snake_case)."))]),
          ("new_tool_description", .obj [("type", .str ("string")),
            ("description", .str ("A clear description of what the new tool does and when to use it."))]),
          ("new_tool_parameters", .obj [
            ("type", .str ("object")),
            ("description", .str ("A JSON schema object describing the parameters the new function will accept.")),
            ("properties", .obj [
              ("type", .obj [("type", .str ("string")), ("enum", .arr [.str ("object")])]),
              ("properties", .obj [("type", .str ("object"))]),
              ("required", .obj [("type", .str ("array")),
                ("items", .obj [("type", .str ("string"))])])]),
            ("required", .arr [.str ("type"), .str ("properties")])])]),
        ("required", .arr [.str ("new_tool_name"), .str ("new_tool_description"),
          .str ("new_tool_parameters")])]

/-- The name, description, schema triple returned by the Resolver. -/
structure ToolDesc where
  name : JSVal
  description : JSVal
  parameters : JSVal

/-- The reserved tool descriptor built from the static definition. -/
def reservedDesc : ToolDesc := ⟨.str reservedName, .str reservedDescription, reservedParams⟩

/-- The vector store: an ordered list of id-metadata records. -/
abbrev Store := List (String × JSVal)

/-- Chroma `collection.get` by a single id. -/
def storeFind (store : Store) (id : String) : Option JSVal :=
  (store.find? (fun e => e.1 == id)).map (fun e => e.2)

/-- Object.entries for the receivers that reach it in
generateToolCreationPrompt; null/undefined make it throw (`none`). -/
def entriesOf : JSVal → Option (List (String × JSVal))
  | .obj fs => some fs
  | .arr l => some ((l.enum).map (fun p => (String.mk (natChars p.1), p.2)))
  | _ => none

/-- Outcome of generateToolCreationPrompt: the prompt text itself is only
passed to the generation provider (an oracle), so the embedding keeps just
the validation outcome: it throws when the schema shape check fails, when
`Object.entries(parameters.properties)` throws, when a property value is
null/undefined (reading `.type` on it throws), or when a truthy
non-array `required` has no `join` method. -/
def genPrompt (params : JSVal) : JSOutcome Unit :=
  if ¬ (truthy params && (jsTypeof params == "object") &&
        (match propD params "type" with | .str s => s == "object" | _ => false) &&
        (jsTypeof (propD params "properties") == "object")) then
    .thrown ("Invalid parameters schema provided for new tool creation.")
  else
    match entriesOf (propD params "properties") with
    | none => .thrown ("Cannot convert undefined or null to object")
    | some es =>
      if es.any (fun p => match p.2 with | .null => true | .undefined => true | _ => false) then
        .thrown ("Cannot read properties of null or undefined (reading type)")
      else
        if truthy (propD params "required") then
          match propD params "required" with
          | .arr _ => .ret ()
          | _ => .thrown ("requiredParams.join is not a function")
        else .ret ()

/-- Oracle responses of the collaborators used by createTool: the chat
completion (`llm`, with thrown errors as `.error`), the duplicate
re-check `collection.get`, the embedding call, the `collection.add`
write, and the JavaScript parser behind `new Function` used by the
syntax-only validation. -/
structure CreateEnv where
  llm : Except String String
  recheck : Except String Unit
  embed : Except String Unit
  add : Except String Unit
  syntaxOk : String → Bool
  syntaxMsg : String

/-- Metadata record written by createTool and ensureToolCreationTool. -/
def mkToolMetadata (name desc : JSVal) (pjson code : String) (internal : Bool) : JSVal :=
  .obj [("name", name), ("description", desc), ("parameters_json", .str pjson),
        ("code", .str code), ("is_internal", .bool internal)]

/-- ToolCreationManager.createTool.  The returned outcome is the
JavaScript return value or the exception escaping the call (the
generateToolCreationPrompt call of step 2 sits outside every try block);
the returned store is the collection after the call. -/
def createTool (env : CreateEnv) (store : Store) (name desc params : JSVal) :
    JSOutcome String × Store :=
  if ¬ (truthy name && truthy desc && truthy params) then
    (.ret ("Error: Missing required arguments for tool creation (name, description, parameters)."),
      store)
  else if ¬ ((jsTypeof name == "string") && (jsTypeof desc == "string") &&
      (jsTypeof params == "object")) then
    (.ret ("Error: Invalid argument types for tool creation."), store)
  else
    let nameS := match name with | .str s => s | _ => ""
    if ¬ validName nameS then
      (.ret ("Error: Invalid tool name " ++ nameS ++
        ". Use snake_case with letters, numbers, and underscores, starting with a letter or underscore."),
        store)
    else
      match genPrompt params with
      | .thrown m => (.thrown m, store)
      | .ret _ =>
        match env.llm with
        | .error m =>
          (.ret ("Error: Failed to generate or validate code for tool " ++ nameS ++ ". " ++ m),
            store)
        | .ok raw =>
          let rawT := trimS raw
          if rawT == "" then
            (.ret ("Error: Failed to generate or validate code for tool " ++ nameS ++
              ". LLM returned empty code."), store)
          else
            let code := sanitizeGeneratedCode rawT nameS
            if ¬ validSignature code nameS then
              (.ret ("Error: Failed to generate or validate code for tool " ++ nameS ++
                ". Generated code does not start with the expected function signature."), store)
            else if ¬ env.syntaxOk code then
              (.ret ("Error: Failed to generate or validate code for tool " ++ nameS ++
                ". Generated code has syntax errors: " ++ env.syntaxMsg), store)
            else
              match env.recheck with
              | .error m =>
                (.ret ("Error: Failed to store tool " ++ nameS ++ " in database. " ++ m), store)
              | .ok _ =>
                if (storeFind store nameS).isSome then
                  (.ret ("Warning: Tool " ++ nameS ++ " already existed. Creation skipped."),
                    store)
                else
                  match env.embed with
                  | .error m =>
                    (.ret ("Error: Failed to store tool " ++ nameS ++ " in database. " ++ m),
                      store)
                  | .ok _ =>
                    match env.add with
                    | .error m =>
                      (.ret ("Error: Failed to store tool " ++ nameS ++ " in database. " ++ m),
                        store)
                    | .ok _ =>
                      (.ret ("Successfully created tool: " ++ nameS),
                        store ++ [(nameS, mkToolMetadata name desc (stringifyD params) code false)])

/-- The record assembled by getToolDefinition from stored metadata. -/
structure ToolDef where
  name : JSVal
  description : JSVal
  parameters : JSVal
  code : JSVal
  is_internal : JSVal

/-- ToolCreationManager.getToolDefinition: `none` models the null result
(store throw, id not found, incomplete metadata, or a parameters_json
that JSON.parse rejects — every throw is caught and becomes null). -/
def getToolDefinition (getThrows : Bool) (store : Store) (toolName : String) : Option ToolDef :=
  if getThrows then none
  else
    match storeFind store toolName with
    | none => none
    | some md =>
      if ¬ truthy md then none
      else if ¬ (truthy (propD md "code") && truthy (propD md "parameters_json")) then none
      else
        match jsonParse (jsToString (propD md "parameters_json")) with
        | none => none
        | some params =>
          some ⟨propD md "name", propD md "description", params, propD md "code",
            jsOr (propD md "is_internal") (.bool false)⟩

/-- Oracle responses of the collaborators used by getAvailableTools: one
failure flag for the embedding call and the store query (either throwing
lands in the same catch), and the ranked id-metadata rows the query
returns.  The rows absorb every possible store content, ranking, and
`count` cut-off. -/
structure QueryEnv where
  fails : Bool
  entries : List (String × JSVal)

/-- One iteration of the query-result loop in getAvailableTools: skip the
reserved id, skip rows with missing metadata fields, skip rows whose
parameters_json does not parse, otherwise build the descriptor. -/
def convertEntry (id : String) (md : JSVal) : Option ToolDesc :=
  if id == reservedName then none
  else if truthy md && truthy (propD md "name") && truthy (propD md "description") &&
      truthy (propD md "parameters_json") then
    match jsonParse (jsToString (propD md "parameters_json")) with
    | some p => some ⟨propD md "name", propD md "description", p⟩
    | none => none
  else none

/-- The query-result loop of getAvailableTools. -/
def buildFromEntries : List (String × JSVal) → List ToolDesc
  | [] => []
  | (id, md) :: rest =>
    match convertEntry id md with
    | some d => d :: buildFromEntries rest
    | none => buildFromEntries rest

/-- ToolCreationManager.getAvailableTools.  `contextQuery` and `count`
are forwarded to the collaborators whose responses `env` already fixes the
results of; on any collaborator failure the catch returns the one-element
list holding the reserved tool descriptor. -/
def getAvailableTools (env : QueryEnv) (contextQuery : String) (count : Nat) : List ToolDesc :=
  if env.fails then [reservedDesc]
  else reservedDesc :: buildFromEntries env.entries

/-- Behaviour of one dynamic invocation of the stored source inside the
wrapper built by executeTool: whether splicing the code bound a function
of the expected name, and what invoking it returned or threw. -/
structure ToolRun where
  defines : Bool
  outcome : JSOutcome JSVal

/-- Oracle responses of the collaborators used by executeTool: the
createTool oracles for the reserved path, the store lookup failure flag,
the `new Function` wrapper compilation, and the dynamic invocation. -/
structure ExecEnv where
  create : CreateEnv
  getThrows : Bool
  compile : Except String Unit
  run : ToolRun

/-- Which of the dynamic-execution steps executeTool actually performed:
whether `new Function` was called on the stored source and whether the
wrapper (hence the stored tool) was invoked. -/
structure ExecTrace where
  compiled : Bool
  invoked : Bool

/-- The required parameters of the reserved tool, in schema order. -/
def requiredKeys : List String :=
  ["new_tool_name", "new_tool_description", "new_tool_parameters"]

/-- The required-argument loop of the internal tool_creation path:
`args[param]` may throw (null/undefined args), and the first
missing-or-null required key aborts. -/
def scanRequiredKeys (args : JSVal) : List String → JSOutcome (Option String)
  | [] => .ret none
  | k :: ks =>
    match jsMember args k with
    | .thrown m => .thrown m
    | .ret .undefined => .ret (some k)
    | .ret .null => .ret (some k)
    | .ret _ => scanRequiredKeys args ks

/-- JavaScript for-of iterability: arrays iterate their elements, strings
their characters; other values are not iterable. -/
def jsIterate : JSVal → Option (List JSVal)
  | .arr l => some l
  | .str s => some (s.data.map (fun c => JSVal.str (String.mk [c])))
  | _ => none

/-- The required-argument loop of the stored-schema path. -/
def scanRequiredVals (args : JSVal) : List JSVal → JSOutcome (Option JSVal)
  | [] => .ret none
  | p :: ps =>
    match jsMember args (jsToString p) with
    | .thrown m => .thrown m
    | .ret .undefined => .ret (some p)
    | .ret .null => .ret (some p)
    | .ret _ => scanRequiredVals args ps

/-- The args-against-schema validation of executeTool (`if (schema &&
schema.required) for (const param of schema.required) ...`). -/
def checkRequired (args schema : JSVal) : JSOutcome (Option JSVal) :=
  if truthy schema && truthy (propD schema "required") then
    match jsIterate (propD schema "required") with
    | none => .thrown ("schema.required is not iterable")
    | some ps => scanRequiredVals args ps
  else .ret none

/-- ToolCreationManager.executeTool: the returned outcome is the value of
the JavaScript call, the store is threaded through the internal
createTool delegation, and the trace records whether the wrapper was
compiled and invoked. -/
def executeTool (env : ExecEnv) (store : Store) (toolName : String) (args : JSVal) :
    JSOutcome JSVal × Store × ExecTrace :=
  if toolName == reservedName then
    match scanRequiredKeys args requiredKeys with
    | .thrown m =>
      (.ret (.str ("Error: Failed to execute " ++ toolName ++ ". " ++ m)), store,
        ⟨false, false⟩)
    | .ret (some k) =>
      (.ret (.str ("Error: Failed to execute " ++ toolName ++ ". Missing required parameter " ++
        k ++ " for tool_creation.")), store, ⟨false, false⟩)
    | .ret none =>
      if ¬ ((jsTypeof (propD args "new_tool_name") == "string") &&
            (jsTypeof (propD args "new_tool_description") == "string") &&
            (jsTypeof (propD args "new_tool_parameters") == "object")) then
        (.ret (.str ("Error: Failed to execute " ++ toolName ++
          ". Invalid parameter types for tool_creation.")), store, ⟨false, false⟩)
      else
        match createTool env.create store (propD args "new_tool_name")
            (propD args "new_tool_description") (propD args "new_tool_parameters") with
        | (.ret s, store2) => (.ret (.str s), store2, ⟨false, false⟩)
        | (.thrown m, store2) =>
          (.ret (.str ("Error: Failed to execute " ++ toolName ++ ". " ++ m)), store2,
            ⟨false, false⟩)
  else
    match getToolDefinition env.getThrows store toolName with
    | none =>
      (.ret (.str ("Error: Tool " ++ toolName ++ " not found or definition is corrupted.")),
        store, ⟨false, false⟩)
    | some td =>
      if truthy td.is_internal then
        (.ret (.str ("Error: Cannot execute internal tool " ++ toolName ++ " directly.")),
          store, ⟨false, false⟩)
      else if ¬ (truthy td.code && (jsTypeof td.code == "string")) then
        (.ret (.str ("Error: Invalid or missing code for tool " ++ toolName ++ ".")),
          store, ⟨false, false⟩)
      else
        match checkRequired args td.parameters with
        | .thrown m =>
          (.ret (.str ("Error: Failed to execute tool " ++ toolName ++
            ". Malformed code or unexpected runtime error. " ++ m)), store, ⟨false, false⟩)
        | .ret (some p) =>
          (.ret (.str ("Error: Failed to execute tool " ++ toolName ++
            ". Malformed code or unexpected runtime error. Missing required parameter " ++
            jsToString p ++ " for tool " ++ toolName ++ ".")), store, ⟨false, false⟩)
        | .ret none =>
          match env.compile with
          | .error m =>
            (.ret (.str ("Error: Failed to execute tool " ++ toolName ++
              ". Malformed code or unexpected runtime error. " ++ m)), store, ⟨true, false⟩)
          | .ok _ =>
            if ¬ env.run.defines then
              (.ret (.str ("Error: Execution failed for tool " ++ toolName ++
                ": Tool code did not define function " ++ toolName ++ ".")), store,
                ⟨true, false⟩)
            else
              match env.run.outcome with
              | .thrown m =>
                (.ret (.str ("Error: Execution failed for tool " ++ toolName ++ ": " ++ m)),
                  store, ⟨true, true⟩)
              | .ret v =>
                if jsTypeof v == "string" then (.ret v, store, ⟨true, true⟩)
                else (.ret (.str (jsToString v)), store, ⟨true, true⟩)

/-- Whether a result string signals failure under the string protocol. -/
def hasErrPre (s : String) : Bool := (("Error:").data).isPrefixOf s.data

/-! Helper lemmas about the embedding, used by the claim theorems. -/

theorem hasErrPre_append (s t : String) (h : hasErrPre s = true) :
    hasErrPre (s ++ t) = true := by
  rw [hasErrPre] at h ⊢
  rw [String.data_append]
  rw [List.isPrefixOf_iff_prefix] at h ⊢
  exact h.trans (List.prefix_append s.data t.data)

theorem validName_ne_empty (s : String) (h : validName s = true) : s ≠ "" := by
  intro he
  subst he
  simp [validName] at h

theorem truthy_str_iff (s : String) : truthy (.str s) = true ↔ s ≠ "" := by
  simp [truthy]

/-- genPrompt only returns normally when the schema shape check of
generateToolCreationPrompt passed. -/
theorem genPrompt_ret_shape (params : JSVal) (h : ∃ u, genPrompt params = .ret u) :
    truthy params = true ∧ jsTypeof params = "object" := by
  obtain ⟨u, h⟩ := h
  rw [genPrompt] at h
  split at h
  · cases h
  · next hc =>
    rw [not_not] at hc
    simp only [Bool.and_eq_true, beq_iff_eq] at hc
    exact ⟨hc.1.1.1, hc.1.1.2⟩

theorem storeFind_append_self (store : Store) (nm : String) (md : JSVal)
    (h : storeFind store nm = none) :
    storeFind (store ++ [(nm, md)]) nm = some md := by
  induction store with
  | nil => simp [storeFind, List.find?]
  | cons e store ih =>
    simp only [storeFind, List.find?, List.cons_append] at h ⊢
    rcases hbe : (e.1 == nm) with _ | _
    · rw [hbe] at h
      simp only [hbe]
      exact ih (by simpa [storeFind] using h)
    · rw [hbe] at h
      simp at h

/-! C7 and C5 and C10: the Resolver claims. -/

/-- Store rows written by this subsystem always carry their id as the
`name` metadata field (both ensureToolCreationTool and createTool write
`metadatas.name` equal to the id they pass in `ids`); the Resolver
theorems assume the queried rows respect this store invariant. -/
def EntriesConsistent (entries : List (String × JSVal)) : Prop :=
  ∀ e ∈ entries, propD e.2 "name" = .str e.1

/-- Whether a descriptor carries the reserved tool's name. -/
def isReservedNameB : JSVal → Bool
  | .str s => s == reservedName
  | _ => false

theorem convertEntry_some (id : String) (md : JSVal) (d : ToolDesc)
    (h : convertEntry id md = some d) :
    id ≠ reservedName ∧ truthy md = true ∧ truthy (propD md "name") = true ∧
      truthy (propD md "description") = true ∧ truthy (propD md "parameters_json") = true ∧
      jsonParse (jsToString (propD md "parameters_json")) = some d.parameters ∧
      d.name = propD md "name" ∧ d.description = propD md "description" := by
  rw [convertEntry] at h
  split at h
  · cases h
  · next hid =>
    split at h
    · next hmeta =>
      split at h
      · next p hp =>
        simp only [Option.some.injEq] at h
        subst h
        simp only [Bool.and_eq_true] at hmeta
        exact ⟨by simpa using hid, hmeta.1.1.1, hmeta.1.1.2, hmeta.1.2, hmeta.2, hp, rfl, rfl⟩
      · cases h
    · cases h

theorem buildFromEntries_mem (entries : List (String × JSVal)) (d : ToolDesc)
    (h : d ∈ buildFromEntries entries) :
    ∃ id md, (id, md) ∈ entries ∧ convertEntry id md = some d := by
  induction entries with
  | nil => simp [buildFromEntries] at h
  | cons e rest ih =>
    obtain ⟨id, md⟩ := e
    rw [buildFromEntries] at h
    rcases hce : convertEntry id md with _ | d2
    · rw [hce] at h
      obtain ⟨id2, md2, hm, hc⟩ := ih h
      exact ⟨id2, md2, by simp [hm], hc⟩
    · rw [hce] at h
      rcases List.mem_cons.mp h with h2 | h2
      · subst h2
        exact ⟨id, md, by simp, hce⟩
      · obtain ⟨id2, md2, hm, hc⟩ := ih h2
        exact ⟨id2, md2, by simp [hm], hc⟩

theorem buildFromEntries_no_reserved (entries : List (String × JSVal))
    (hcons : EntriesConsistent entries) :
    (buildFromEntries entries).countP (fun d => isReservedNameB d.name) = 0 := by
  rw [List.countP_eq_zero]
  intro d hd
  obtain ⟨id, md, hm, hc⟩ := buildFromEntries_mem entries d hd
  obtain ⟨hid, _, _, _, _, _, hname, _⟩ := convertEntry_some id md d hc
  rw [hname, hcons (id, md) hm]
  simp [isReservedNameB, hid]

theorem buildFromEntries_length (entries : List (String × JSVal)) :
    (buildFromEntries entries).length =
      entries.countP (fun e => (convertEntry e.1 e.2).isSome) := by
  induction entries with
  | nil => simp [buildFromEntries]
  | cons e rest ih =>
    obtain ⟨id, md⟩ := e
    rw [buildFromEntries, List.countP_cons]
    rcases hce : convertEntry id md with _ | d2
    · simp [hce, ih]
    · simp [hce, ih]

/-- C5: for every collaborator behaviour (hence every context string and
every count), provided the queried rows carry their id as their `name`
metadata — the invariant this subsystem maintains for everything it
writes — the list returned by getAvailableTools has the reserved
bootstrap tool's static descriptor as its first element, and a
descriptor carrying the reserved tool's name occurs exactly once. -/
theorem C5_reserved_first_and_once (env : QueryEnv) (ctx : String) (k : Nat)
    (hcons : EntriesConsistent env.entries) :
    (getAvailableTools env ctx k).head? = some reservedDesc ∧
    (getAvailableTools env ctx k).countP (fun d => isReservedNameB d.name) = 1 := by
  rw [getAvailableTools]
  rcases hf : env.fails with _ | _
  · simp only [Bool.false_eq_true, if_false]
    refine ⟨rfl, ?_⟩
    rw [List.countP_cons, buildFromEntries_no_reserved env.entries hcons]
    rfl
  · simp only [if_pos rfl]
    exact ⟨rfl, rfl⟩

/-- C5 witness: a store row for another tool under consistent metadata. -/
theorem C5_reserved_first_and_once_witness :
    (getAvailableTools
        ⟨false, [(("move_entity" : String), mkToolMetadata (.str ("move_entity"))
          (.str ("Move an entity.")) ("\x7b\"type\":\"object\",\"properties\":\x7b\x7d\x7d")
          ("function move_entity(params) \x7b return \"ok\"; \x7d") false)]⟩
        ("player wants to move") 5).head? = some reservedDesc ∧
    (getAvailableTools
        ⟨false, [(("move_entity" : String), mkToolMetadata (.str ("move_entity"))
          (.str ("Move an entity.")) ("\x7b\"type\":\"object\",\"properties\":\x7b\x7d\x7d")
          ("function move_entity(params) \x7b return \"ok\"; \x7d") false)]⟩
        ("player wants to move") 5).countP (fun d => isReservedNameB d.name) = 1 := by
  exact C5_reserved_first_and_once _ ("player wants to move") 5
    (by
      intro e he
      simp only [List.mem_singleton] at he
      subst he
      rfl)

/-- C7: when the embedding provider or the store query fails,
getAvailableTools returns exactly the one-element list holding the
reserved tool descriptor (the catch swallows the exception, so nothing
is raised to the caller). -/
theorem C7_fail_soft (env : QueryEnv) (ctx : String) (k : Nat) (h : env.fails = true) :
    getAvailableTools env ctx k = [reservedDesc] := by
  rw [getAvailableTools, h]
  rfl

/-- C7 witness: a failing environment returns only the reserved tool. -/
theorem C7_fail_soft_witness :
    getAvailableTools ⟨true, [(("x" : String), JSVal.null)]⟩ ("anything") 3 = [reservedDesc] :=
  C7_fail_soft ⟨true, [(("x" : String), JSVal.null)]⟩ ("anything") 3 rfl

/-- C10: on the non-failing path, every element after the reserved head
descriptor is well formed — it comes from a queried row whose id is not
the reserved name, whose metadata has truthy name, description and
parameters_json fields, and whose serialized schema parses successfully
to the descriptor's schema — and the length equation shows that rows
with missing metadata or unparseable parameters_json are silently
omitted (each convertible row contributes exactly one descriptor, every
other row contributes none). -/
theorem C10_query_results_well_formed (env : QueryEnv) (ctx : String) (k : Nat)
    (h : env.fails = false) :
    (∀ d ∈ (getAvailableTools env ctx k).drop 1,
      ∃ id md, (id, md) ∈ env.entries ∧ id ≠ reservedName ∧
        truthy md = true ∧ truthy (propD md "name") = true ∧
        truthy (propD md "description") = true ∧ truthy (propD md "parameters_json") = true ∧
        jsonParse (jsToString (propD md "parameters_json")) = some d.parameters ∧
        d.name = propD md "name" ∧ d.description = propD md "description") ∧
    (getAvailableTools env ctx k).length =
      1 + env.entries.countP (fun e => (convertEntry e.1 e.2).isSome) := by
  rw [getAvailableTools, h]
  simp only [Bool.false_eq_true, if_false]
  constructor
  · intro d hd
    simp only [List.drop_succ_cons, List.drop_zero] at hd
    obtain ⟨id, md, hm, hc⟩ := buildFromEntries_mem env.entries d hd
    obtain ⟨h1, h2, h3, h4, h5, h6, h7, h8⟩ := convertEntry_some id md d hc
    exact ⟨id, md, hm, h1, h2, h3, h4, h5, h6, h7, h8⟩
  · rw [List.length_cons, buildFromEntries_length]
    omega

/-- C10 witness: a good row is kept and parsed, a corrupt row (metadata
null) is omitted. -/
theorem C10_query_results_well_formed_witness :
    ((getAvailableTools ⟨false, [(("good" : String), mkToolMetadata (.str ("good"))
        (.str ("d")) ("\x7b\"type\":\"object\"\x7d") ("function good(params) \x7b\x7d") false),
        (("bad" : String), JSVal.null)]⟩ ("ctx") 2).length = 2) := by
  have h := (C10_query_results_well_formed ⟨false, [(("good" : String),
    mkToolMetadata (.str ("good")) (.str ("d")) ("\x7b\"type\":\"object\"\x7d")
    ("function good(params) \x7b\x7d") false), (("bad" : String), JSVal.null)]⟩
    ("ctx") 2 rfl).2
  rw [h]
  rfl

/-! C3: the precondition claims about createTool. -/

/-- A trivial collaborator environment for concrete counterexamples. -/
def cenvTrivial : CreateEnv := ⟨.ok (""), .ok (), .ok (), .ok (), fun _ => true, ""⟩

/-- C3 counterexample: with a schema violating the shape precondition
(here: no `properties` member), createTool does not return an
`Error:`-prefixed string — it raises (the validation inside
generateToolCreationPrompt throws and no try block catches it), refuting
the claim that every precondition violation yields a returned string. -/
theorem C3_counterexample :
    (createTool cenvTrivial [] (.str ("t")) (.str ("d"))
        (.obj [("type", .str ("object"))])).1 =
      .thrown ("Invalid parameters schema provided for new tool creation.") ∧
    ∀ s : String, (createTool cenvTrivial [] (.str ("t")) (.str ("d"))
        (.obj [("type", .str ("object"))])).1 ≠ .ret s := by
  constructor
  · rfl
  · intro s h
    exact JSOutcome.noConfusion
      (show JSOutcome.thrown ("Invalid parameters schema provided for new tool creation.") =
        JSOutcome.ret s from h)

/-- The precondition violations that createTool handles by returning:
missing/falsy or wrongly typed arguments, or an invalid tool name. -/
def BasicViolation (name desc params : JSVal) : Bool :=
  (!(truthy name && truthy desc && truthy params)) ||
  (!((jsTypeof name == "string") && (jsTypeof desc == "string") &&
     (jsTypeof params == "object"))) ||
  (!(validName (match name with | .str s => s | _ => "")))

/-- C3 amended: createTool answers the basic precondition violations
(missing or falsy name/description/schema, wrong top-level types,
invalid name grammar) with a returned `Error:`-prefixed string and no
store change; but when those checks pass and the schema still fails the
prompt-construction validation (for instance `type` not "object" or a
non-object `properties`), createTool raises instead of returning — the
exception is only turned into an `Error:` string by executeTool's catch
— again with no store change. -/
theorem jsTypeof_string (v : JSVal) (h : (jsTypeof v == "string") = true) :
    ∃ s, v = .str s := by
  cases v <;> first
    | exact ⟨_, rfl⟩
    | simp [jsTypeof] at h

theorem createTool_nonstr_name (env : CreateEnv) (store : Store) (name desc params : JSVal)
    (hns : (jsTypeof name == "string") = false) :
    ∃ e, createTool env store name desc params = (.ret e, store) ∧ hasErrPre e = true := by
  delta createTool
  by_cases h1 : (truthy name && truthy desc && truthy params) = true
  · have hcond2 : ((jsTypeof name == "string") && (jsTypeof desc == "string") &&
        (jsTypeof params == "object")) = false := by
      rw [hns]
      rfl
    rw [if_neg (by simp [h1]), if_pos (by rw [hcond2]; exact Bool.false_ne_true)]
    exact ⟨_, rfl, by decide⟩
  · rw [if_pos (by simpa using h1)]
    exact ⟨_, rfl, by decide⟩

theorem C3_amended_preconditions (env : CreateEnv) (store : Store) (name desc params : JSVal) :
    (BasicViolation name desc params = true →
      ∃ e, createTool env store name desc params = (.ret e, store) ∧ hasErrPre e = true) ∧
    (BasicViolation name desc params = false → ∀ m, genPrompt params = .thrown m →
      createTool env store name desc params = (.thrown m, store)) := by
  by_cases hstr : (jsTypeof name == "string") = true
  · obtain ⟨s2, rfl⟩ := jsTypeof_string name hstr
    constructor
    · intro hb
      by_cases h1 : (truthy (JSVal.str s2) && truthy desc && truthy params) = true
      · by_cases h2 : ((jsTypeof (JSVal.str s2) == "string") && (jsTypeof desc == "string") &&
            (jsTypeof params == "object")) = true
        · have h3 : validName s2 = false := by
            rcases hv : validName s2 with _ | _
            · rfl
            · exfalso
              simp [BasicViolation, h1, h2, hv] at hb
          rw [createTool, if_neg (by simp [h1]), if_neg (by simp [h2])]
          dsimp only
          rw [if_pos (by simp [h3])]
          exact ⟨_, rfl, hasErrPre_append ("Error: Invalid tool name ") _ (by decide)⟩
        · rw [createTool, if_neg (by simp [h1]), if_pos (by simpa using h2)]
          exact ⟨_, rfl, by decide⟩
      · rw [createTool, if_pos (by simpa using h1)]
        exact ⟨_, rfl, by decide⟩
    · intro hb m hm
      have hA : (truthy (JSVal.str s2) && truthy desc && truthy params) = true := by
        rcases hq : (truthy (JSVal.str s2) && truthy desc && truthy params) with _ | _
        · rw [BasicViolation, hq] at hb
          simp at hb
        · rfl
      have hB : ((jsTypeof (JSVal.str s2) == "string") && (jsTypeof desc == "string") &&
          (jsTypeof params == "object")) = true := by
        rcases hq : ((jsTypeof (JSVal.str s2) == "string") && (jsTypeof desc == "string") &&
            (jsTypeof params == "object")) with _ | _
        · rw [BasicViolation, hq] at hb
          simp at hb
        · rfl
      have hC : validName s2 = true := by
        rcases hq : validName s2 with _ | _
        · rw [BasicViolation] at hb
          simp [hq] at hb
        · rfl
      rw [createTool, if_neg (by simp [hA]), if_neg (by simp [hB])]
      dsimp only
      rw [if_neg (by simp [hC]), hm]
  · constructor
    · intro hb
      refine createTool_nonstr_name env store name desc params ?_
      rcases hq : (jsTypeof name == "string") with _ | _
      · rfl
      · exact absurd hq hstr
    · intro hb m hm
      exfalso
      have hns : (jsTypeof name == "string") = false := by
        rcases hq : (jsTypeof name == "string") with _ | _
        · rfl
        · exact absurd hq hstr
      have hv : BasicViolation name desc params = true := by
        delta BasicViolation
        rw [hns]
        simp
      rw [hv] at hb
      cases hb

/-- C3 amended witness: a wrongly typed name returns an error string, and
a shape-violating schema under valid basics makes createTool raise. -/
theorem C3_amended_preconditions_witness :
    (∃ e, createTool cenvTrivial [] (.num 5) (.str ("d")) (.obj []) = (.ret e, []) ∧
      hasErrPre e = true) ∧
    createTool cenvTrivial [] (.str ("t")) (.str ("d")) (.arr []) =
      (.thrown ("Invalid parameters schema provided for new tool creation."), []) := by
  constructor
  · exact (C3_amended_preconditions cenvTrivial [] (.num 5) (.str ("d")) (.obj [])).1
      (by decide)
  · exact (C3_amended_preconditions cenvTrivial [] (.str ("t")) (.str ("d")) (.arr [])).2
      (by decide) ("Invalid parameters schema provided for new tool creation.") rfl

/-! C4: duplicate-name idempotence of createTool. -/

theorem hasErrPre_head_ne (s : String) (c : Char) (rest : List Char)
    (hdata : s.data = c :: rest) (hne : c ≠ 'E') : hasErrPre s = false := by
  rw [hasErrPre, hdata]
  rw [show (("Error:").data) = 'E' :: ("rror:").data from rfl]
  have hbe : (('E' : Char) == c) = false := by
    simp [Ne.symm hne]
  simp [List.isPrefixOf, hbe]

/-- C4: when a tool of the given name already exists at the duplicate
re-check, createTool returns the warning string — which does not carry
the `Error:` prefix — performs no write, and leaves the store, hence the
previously stored entry, unchanged. -/
theorem C4_duplicate_is_warning (env : CreateEnv) (store : Store) (nm ds raw : String)
    (params : JSVal)
    (hvn : validName nm = true) (hds : ds ≠ "")
    (hgen : genPrompt params = .ret ())
    (hllm : env.llm = .ok raw) (htrim : trimS raw ≠ "")
    (hsig : validSignature (sanitizeGeneratedCode (trimS raw) nm) nm = true)
    (hsyn : env.syntaxOk (sanitizeGeneratedCode (trimS raw) nm) = true)
    (hre : env.recheck = .ok ()) (hdup : (storeFind store nm).isSome = true) :
    createTool env store (.str nm) (.str ds) params =
      (.ret ("Warning: Tool " ++ nm ++ " already existed. Creation skipped."), store) ∧
    hasErrPre ("Warning: Tool " ++ nm ++ " already existed. Creation skipped.") = false := by
  have hshape := genPrompt_ret_shape params ⟨(), hgen⟩
  constructor
  · have hcond1 : (truthy (.str nm) && truthy (.str ds) && truthy params) = true := by
      rw [(truthy_str_iff nm).mpr (validName_ne_empty nm hvn), (truthy_str_iff ds).mpr hds,
        hshape.1]
      rfl
    have hcond2 : ((jsTypeof (.str nm) == "string") && (jsTypeof (.str ds) == "string") &&
        (jsTypeof params == "object")) = true := by
      rw [hshape.2]
      rfl
    rw [createTool]
    rw [if_neg (by rw [hcond1]; exact not_not_intro rfl)]
    rw [if_neg (by rw [hcond2]; exact not_not_intro rfl)]
    try dsimp only
    rw [if_neg (not_not_intro hvn)]
    rw [hgen, hllm]
    try dsimp only
    rw [if_neg (by simp [htrim])]
    try dsimp only
    rw [if_neg (not_not_intro hsig)]
    rw [if_neg (not_not_intro hsyn)]
    rw [hre]
    try dsimp only
    rw [if_pos hdup]
  · exact hasErrPre_head_ne _ 'W' _ rfl (by decide)

/-- C4 witness: a concrete duplicate creation returns the warning and
leaves the store unchanged. -/
theorem C4_duplicate_is_warning_witness :
    createTool ⟨.ok ("function greet(params) \x7b return \"hi\"; \x7d"), .ok (), .ok (),
        .ok (), fun _ => true, ""⟩
      [(("greet" : String), JSVal.obj [])] (.str ("greet")) (.str ("d"))
      (.obj [("type", .str ("object")), ("properties", .obj [])]) =
      (.ret ("Warning: Tool " ++ "greet" ++ " already existed. Creation skipped."),
        [(("greet" : String), JSVal.obj [])]) ∧
    hasErrPre ("Warning: Tool " ++ "greet" ++ " already existed. Creation skipped.") = false := by
  exact C4_duplicate_is_warning _ _ ("greet") ("d")
    ("function greet(params) \x7b return \"hi\"; \x7d")
    (.obj [("type", .str ("object")), ("properties", .obj [])])
    (by decide) (by decide) rfl rfl (by decide) (by decide) rfl rfl (by decide)

/-! C2: validation gates persistence in createTool. -/

/-- C2: createTool never persists unvalidated source.  Either the store
is unchanged, or exactly one record was appended whose stored code
passed both the signature check and the syntax-only parse oracle; and
whenever the sanitized code fails the signature check or the syntax
check, createTool returns an `Error:`-prefixed string and performs no
store mutation. -/
theorem C2_validation_gates_persist (env : CreateEnv) (store : Store)
    (name desc params : JSVal) :
    ((createTool env store name desc params).2 = store ∨
      ∃ nm code, name = .str nm ∧ validSignature code nm = true ∧ env.syntaxOk code = true ∧
        (createTool env store name desc params).2 =
          store ++ [(nm, mkToolMetadata name desc (stringifyD params) code false)]) ∧
    (∀ nm raw, name = .str nm → validName nm = true → genPrompt params = .ret () →
      env.llm = .ok raw → trimS raw ≠ "" →
      (validSignature (sanitizeGeneratedCode (trimS raw) nm) nm = false ∨
        env.syntaxOk (sanitizeGeneratedCode (trimS raw) nm) = false) →
      ∃ e, createTool env store name desc params = (.ret e, store) ∧ hasErrPre e = true) := by
  constructor
  · by_cases hstr : (jsTypeof name == "string") = true
    · obtain ⟨nm, rfl⟩ := jsTypeof_string name hstr
      by_cases h1 : (truthy (JSVal.str nm) && truthy desc && truthy params) = true
      case neg =>
        left
        simp [createTool, h1]
      by_cases h2 : ((jsTypeof (JSVal.str nm) == "string") && (jsTypeof desc == "string") &&
          (jsTypeof params == "object")) = true
      case neg =>
        left
        simp [createTool, h1, h2]
      by_cases h3 : validName nm = true
      case neg =>
        left
        simp [createTool, h1, h2, h3]
      rcases hgenO : genPrompt params with u | m
      · rcases hllmO : env.llm with m | raw
        · left
          simp [createTool, h1, h2, h3, hgenO, hllmO]
        · by_cases hraw : (trimS raw == "") = true
          · left
            simp [createTool, h1, h2, h3, hgenO, hllmO, hraw]
          · by_cases hsigO : validSignature (sanitizeGeneratedCode (trimS raw) nm) nm = true
            · by_cases hsynO : env.syntaxOk (sanitizeGeneratedCode (trimS raw) nm) = true
              · rcases hreO : env.recheck with m | u2
                · left
                  simp [createTool, h1, h2, h3, hgenO, hllmO, hraw, hsigO, hsynO, hreO]
                · by_cases hdupO : (storeFind store nm).isSome = true
                  · left
                    simp [createTool, h1, h2, h3, hgenO, hllmO, hraw, hsigO, hsynO, hreO,
                      hdupO]
                  · rcases hembO : env.embed with m | u3
                    · left
                      simp [createTool, h1, h2, h3, hgenO, hllmO, hraw, hsigO, hsynO, hreO,
                        hdupO, hembO]
                    · rcases haddO : env.add with m | u4
                      · left
                        simp [createTool, h1, h2, h3, hgenO, hllmO, hraw, hsigO, hsynO,
                          hreO, hdupO, hembO, haddO]
                      · right
                        refine ⟨nm, sanitizeGeneratedCode (trimS raw) nm, rfl, hsigO,
                          hsynO, ?_⟩
                        simp [createTool, h1, h2, h3, hgenO, hllmO, hraw, hsigO, hsynO,
                          hreO, hdupO, hembO, haddO]
              · left
                simp [createTool, h1, h2, h3, hgenO, hllmO, hraw, hsigO, hsynO]
            · left
              simp [createTool, h1, h2, h3, hgenO, hllmO, hraw, hsigO]
      · left
        simp [createTool, h1, h2, h3, hgenO]
    · obtain ⟨e, he, _⟩ := createTool_nonstr_name env store name desc params
        (by
          rcases hq : (jsTypeof name == "string") with _ | _
          · rfl
          · exact absurd hq hstr)
      left
      rw [he]
  · intro nm raw hname hvn hgen hllm htrim hd
    subst hname
    by_cases h1 : (truthy (JSVal.str nm) && truthy desc && truthy params) = true
    case neg =>
      refine ⟨("Error: Missing required arguments for tool creation (name, description, parameters)."),
        ?_, by decide⟩
      simp [createTool, h1]
    by_cases h2 : ((jsTypeof (JSVal.str nm) == "string") && (jsTypeof desc == "string") &&
        (jsTypeof params == "object")) = true
    case neg =>
      refine ⟨("Error: Invalid argument types for tool creation."), ?_, by decide⟩
      simp [createTool, h1, h2]
    by_cases hsig2 : validSignature (sanitizeGeneratedCode (trimS raw) nm) nm = true
    case neg =>
      refine ⟨("Error: Failed to generate or validate code for tool " ++ nm ++
        ". Generated code does not start with the expected function signature."), ?_,
        hasErrPre_append ("Error: Failed to generate or validate code for tool ") _
          (by decide)⟩
      simp [createTool, h1, h2, hvn, hgen, hllm, htrim, hsig2]
    have hsyn2 : env.syntaxOk (sanitizeGeneratedCode (trimS raw) nm) = false := by
      rcases hd with h | h
      · exact absurd hsig2 (by simp [h])
      · exact h
    refine ⟨("Error: Failed to generate or validate code for tool " ++ nm ++
      ". Generated code has syntax errors: " ++ env.syntaxMsg), ?_,
      hasErrPre_append ("Error: Failed to generate or validate code for tool ") _
        (by decide)⟩
    simp [createTool, h1, h2, hvn, hgen, hllm, htrim, hsig2, hsyn2]

/-- C2 witness: a syntax-oracle failure yields an error and no store
change. -/
theorem C2_validation_gates_persist_witness :
    ∃ e, createTool ⟨.ok ("function t(params) \x7b return \"x\"; \x7d"), .ok (), .ok (),
        .ok (), fun _ => false, "unexpected token"⟩
      [] (.str ("t")) (.str ("d")) (.obj [("type", .str ("object")),
        ("properties", .obj [])]) = (.ret e, []) ∧ hasErrPre e = true := by
  exact (C2_validation_gates_persist ⟨.ok ("function t(params) \x7b return \"x\"; \x7d"),
      .ok (), .ok (), .ok (), fun _ => false, "unexpected token"⟩ [] (.str ("t"))
      (.str ("d")) (.obj [("type", .str ("object")), ("properties", .obj [])])).2
    ("t") ("function t(params) \x7b return \"x\"; \x7d") rfl (by decide) rfl rfl
    (by decide) (Or.inr (by decide))

/-! C6: missing required arguments abort before compilation. -/

/-- The supplied args are missing (or bind to null) a given required
field, in the sense of the executeTool check — including the member-read
TypeError on null/undefined args, which aborts the same way. -/
def argMissing (args p : JSVal) : Bool :=
  match jsMember args (jsToString p) with
  | .thrown _ => true
  | .ret .undefined => true
  | .ret .null => true
  | .ret _ => false

theorem scanRequiredVals_missing (args : JSVal) :
    ∀ ps : List JSVal, (∃ p ∈ ps, argMissing args p = true) →
      (∃ m, scanRequiredVals args ps = .thrown m) ∨
      (∃ q, scanRequiredVals args ps = .ret (some q)) := by
  intro ps
  induction ps with
  | nil => rintro ⟨p, hp, _⟩; cases hp
  | cons p0 ps ih =>
    rintro ⟨p, hp, hmiss⟩
    rcases hj : jsMember args (jsToString p0) with v | m
    · cases v with
      | undefined =>
        right
        refine ⟨p0, ?_⟩
        rw [scanRequiredVals, hj]
      | null =>
        right
        refine ⟨p0, ?_⟩
        rw [scanRequiredVals, hj]
      | bool b =>
        have hstep : scanRequiredVals args (p0 :: ps) = scanRequiredVals args ps := by
          rw [scanRequiredVals, hj]
        rw [hstep]
        rcases List.mem_cons.mp hp with rfl | hp2
        · rw [argMissing, hj] at hmiss
          cases hmiss
        · exact ih ⟨p, hp2, hmiss⟩
      | num n =>
        have hstep : scanRequiredVals args (p0 :: ps) = scanRequiredVals args ps := by
          rw [scanRequiredVals, hj]
        rw [hstep]
        rcases List.mem_cons.mp hp with rfl | hp2
        · rw [argMissing, hj] at hmiss
          cases hmiss
        · exact ih ⟨p, hp2, hmiss⟩
      | str s =>
        have hstep : scanRequiredVals args (p0 :: ps) = scanRequiredVals args ps := by
          rw [scanRequiredVals, hj]
        rw [hstep]
        rcases List.mem_cons.mp hp with rfl | hp2
        · rw [argMissing, hj] at hmiss
          cases hmiss
        · exact ih ⟨p, hp2, hmiss⟩
      | arr l =>
        have hstep : scanRequiredVals args (p0 :: ps) = scanRequiredVals args ps := by
          rw [scanRequiredVals, hj]
        rw [hstep]
        rcases List.mem_cons.mp hp with rfl | hp2
        · rw [argMissing, hj] at hmiss
          cases hmiss
        · exact ih ⟨p, hp2, hmiss⟩
      | obj fs =>
        have hstep : scanRequiredVals args (p0 :: ps) = scanRequiredVals args ps := by
          rw [scanRequiredVals, hj]
        rw [hstep]
        rcases List.mem_cons.mp hp with rfl | hp2
        · rw [argMissing, hj] at hmiss
          cases hmiss
        · exact ih ⟨p, hp2, hmiss⟩
    · left
      refine ⟨m, ?_⟩
      rw [scanRequiredVals, hj]

/-- C6: whenever the supplied args are missing (or bind to null) a field
listed in the stored schema's required list, executeTool returns an
`Error:`-prefixed string and performs neither compilation of the stored
source nor invocation of the tool function (the execution trace records
no compile and no invoke, and the store is untouched). -/
theorem C6_missing_required_aborts (env : ExecEnv) (store : Store) (toolName : String)
    (args : JSVal) (td : ToolDef) (reqs : List JSVal) (p : JSVal)
    (hname : toolName ≠ reservedName)
    (hdef : getToolDefinition env.getThrows store toolName = some td)
    (hint : truthy td.is_internal = false)
    (hcode : (truthy td.code && (jsTypeof td.code == "string")) = true)
    (hschema : truthy td.parameters = true)
    (hreq : propD td.parameters "required" = .arr reqs)
    (hp : p ∈ reqs) (hmiss : argMissing args p = true) :
    ∃ e, executeTool env store toolName args =
      (.ret (.str e), store, ⟨false, false⟩) ∧ hasErrPre e = true := by
  have hcheck := scanRequiredVals_missing args reqs ⟨p, hp, hmiss⟩
  have hcr : checkRequired args td.parameters = scanRequiredVals args reqs := by
    rw [checkRequired, hreq, hschema]
    simp [jsIterate, truthy]
  rw [executeTool]
  rw [if_neg (by simp [hname])]
  rw [hdef]
  dsimp only
  rw [if_neg (by simp [hint])]
  rw [if_neg (by simp [hcode])]
  rw [hcr]
  rcases hcheck with ⟨m, hs⟩ | ⟨q, hs⟩
  · rw [hs]
    exact ⟨_, rfl, hasErrPre_append ("Error: Failed to execute tool ") _ (by decide)⟩
  · rw [hs]
    exact ⟨_, rfl, hasErrPre_append ("Error: Failed to execute tool ") _ (by decide)⟩

/-- C6 witness: a stored tool requiring `x`, called with empty args. -/
theorem C6_missing_required_aborts_witness :
    ∃ e, executeTool ⟨cenvTrivial, false, .ok (), ⟨true, .ret (.str ("ok"))⟩⟩
      [(("greet" : String), mkToolMetadata (.str ("greet")) (.str ("d"))
        ("\x7b\"type\":\"object\",\"required\":[\"x\"]\x7d")
        ("function greet(params) \x7b return \"ok\"; \x7d") false)]
      ("greet") (.obj []) =
      (.ret (.str e), [(("greet" : String), mkToolMetadata (.str ("greet")) (.str ("d"))
        ("\x7b\"type\":\"object\",\"required\":[\"x\"]\x7d")
        ("function greet(params) \x7b return \"ok\"; \x7d") false)], ⟨false, false⟩) ∧
      hasErrPre e = true := by
  exact C6_missing_required_aborts _ _ ("greet") (.obj [])
    ⟨.str ("greet"), .str ("d"),
      .obj [("type", .str ("object")), ("required", .arr [.str ("x")])],
      .str ("function greet(params) \x7b return \"ok\"; \x7d"), .bool false⟩
    [.str ("x")] (.str ("x"))
    (by decide) rfl rfl (by decide) rfl rfl (List.mem_singleton.mpr rfl) rfl

/-! C8: the sanitization step. -/

/-- C8 counterexample: a generated text with leading commentary before a
correctly named function definition.  The claim says the sanitizer scans
past the commentary to the `function` token and keeps the text from
there; in fact the search regex is anchored, so the function signature
present in the text is not found and the whole text is wrapped in a
fresh function shell instead. -/
theorem C8_counterexample :
    sanitizeGeneratedCode ("// helper\nfunction my_tool(params) \x7b return 1; \x7d")
        ("my_tool") =
      ("function my_tool(params) \x7b\n// helper\nfunction my_tool(params) \x7b return 1; \x7d\n\x7d") ∧
    sanitizeGeneratedCode ("// helper\nfunction my_tool(params) \x7b return 1; \x7d")
        ("my_tool") ≠
      ("function my_tool(params) \x7b return 1; \x7d") := by
  constructor
  · decide
  · decide

/-- C8 amended: the sanitizer strips markdown fences and trims
whitespace; when the result does not already start with the correctly
named function, the anchored search finds the `function`/`async
function` token only at the very start of the text (its result is index
zero or no match — leading commentary is never scanned past), the text
is kept unchanged exactly when it begins with that token, and in every
other case — including text containing a function definition after
leading commentary — the remaining text is wrapped in a function shell
named after the tool. -/
theorem C8_amended_sanitize (code : String) (name : String) :
    (searchFuncTok (trimChars (stripFences code.data)) = some 0 ∨
      searchFuncTok (trimChars (stripFences code.data)) = none) ∧
    (expectedStart (trimChars (stripFences code.data)) name = true →
      sanitizeGeneratedCode code name = String.mk (trimChars (stripFences code.data))) ∧
    (expectedStart (trimChars (stripFences code.data)) name = false →
      startsFuncTok (trimChars (stripFences code.data)) = true →
      sanitizeGeneratedCode code name = String.mk (trimChars (stripFences code.data))) ∧
    (expectedStart (trimChars (stripFences code.data)) name = false →
      startsFuncTok (trimChars (stripFences code.data)) = false →
      sanitizeGeneratedCode code name = String.mk ((("function ").data ++ name.data ++
        (("(params) \x7b\n").data) ++ trimChars (stripFences code.data) ++
        (("\n\x7d").data)))) := by
  refine ⟨?_, ?_, ?_, ?_⟩
  · by_cases h : startsFuncTok (trimChars (stripFences code.data)) = true
    · left
      simp [searchFuncTok, h]
    · right
      simp [searchFuncTok, h]
  · intro he
    rw [sanitizeGeneratedCode, sanitizeChars]
    simp [he]
  · intro he hf
    rw [sanitizeGeneratedCode, sanitizeChars]
    simp [he, searchFuncTok, hf]
  · intro he hf
    rw [sanitizeGeneratedCode, sanitizeChars]
    simp [he, searchFuncTok, hf]

/-- C8 amended witness: the counterexample input goes through the wrap
branch of the amended description. -/
theorem C8_amended_sanitize_witness :
    sanitizeGeneratedCode ("// helper\nfunction my_tool(params) \x7b return 1; \x7d")
        ("my_tool") =
      String.mk ((("function ").data ++ ("my_tool").data ++ (("(params) \x7b\n").data) ++
        trimChars (stripFences
          ("// helper\nfunction my_tool(params) \x7b return 1; \x7d").data) ++
        (("\n\x7d").data))) := by
  exact (C8_amended_sanitize ("// helper\nfunction my_tool(params) \x7b return 1; \x7d")
    ("my_tool")).2.2.2 (by decide) (by decide)

/-! C9: schema persistence round-trip. -/

/-- Environment for the C9 counterexample: the generation provider
returns a correctly named function. -/
def cenvC9 : CreateEnv :=
  ⟨.ok ("function t(params) \x7b return \"x\"; \x7d"), .ok (), .ok (), .ok (),
    fun _ => true, ""⟩

/-- The C9 counterexample schema: it passes every createTool check, but
holds an undefined-valued member. -/
def schemaC9 : JSVal :=
  .obj [("type", .str ("object")), ("properties", .obj []), ("extra", .undefined)]

/-- C9 counterexample: createTool accepts `schemaC9` and stores it, but
`JSON.stringify` drops the undefined-valued member, so the schema read
back by getToolDefinition is not deep-equal to the schema that was
passed in — the round-trip claim fails for this accepted schema. -/
theorem C9_counterexample :
    (createTool cenvC9 [] (.str ("t")) (.str ("d")) schemaC9).1 =
      .ret ("Successfully created tool: t") ∧
    (getToolDefinition false (createTool cenvC9 [] (.str ("t")) (.str ("d")) schemaC9).2
        ("t")).map (fun td => td.parameters) =
      some (.obj [("type", .str ("object")), ("properties", .obj [])]) ∧
    (JSVal.obj [("type", .str ("object")), ("properties", .obj [])]) ≠ schemaC9 := by
  refine ⟨rfl, rfl, ?_⟩
  simp [schemaC9]

/-- C9 amended: for every accepted schema whose value graph contains no
undefined member (the only values the serializer rewrites), the schema
written by a successful createTool round-trips: a subsequent
getToolDefinition read of the same tool returns a schema deep-equal to
the one passed in. -/
theorem C9_roundtrip_no_undef (env : CreateEnv) (store : Store) (nm ds raw : String)
    (params : JSVal)
    (hvn : validName nm = true) (hds : ds ≠ "")
    (hgen : genPrompt params = .ret ())
    (hllm : env.llm = .ok raw) (htrim : trimS raw ≠ "")
    (hsig : validSignature (sanitizeGeneratedCode (trimS raw) nm) nm = true)
    (hsyn : env.syntaxOk (sanitizeGeneratedCode (trimS raw) nm) = true)
    (hre : env.recheck = .ok ()) (hdup : storeFind store nm = none)
    (hemb : env.embed = .ok ()) (hadd : env.add = .ok ())
    (hnu : noUndef params = true) :
    ∃ store2, createTool env store (.str nm) (.str ds) params =
        (.ret ("Successfully created tool: " ++ nm), store2) ∧
      ∃ td, getToolDefinition false store2 nm = some td ∧ td.parameters = params := by
  have hshape := genPrompt_ret_shape params ⟨(), hgen⟩
  have hcond1 : (truthy (.str nm) && truthy (.str ds) && truthy params) = true := by
    rw [(truthy_str_iff nm).mpr (validName_ne_empty nm hvn), (truthy_str_iff ds).mpr hds,
      hshape.1]
    rfl
  have hcond2 : ((jsTypeof (.str nm) == "string") && (jsTypeof (.str ds) == "string") &&
      (jsTypeof params == "object")) = true := by
    rw [hshape.2]
    rfl
  have heq : createTool env store (.str nm) (.str ds) params =
      (.ret ("Successfully created tool: " ++ nm),
        store ++ [(nm, mkToolMetadata (.str nm) (.str ds) (stringifyD params)
          (sanitizeGeneratedCode (trimS raw) nm) false)]) := by
    rw [createTool]
    rw [if_neg (by rw [hcond1]; exact not_not_intro rfl)]
    rw [if_neg (by rw [hcond2]; exact not_not_intro rfl)]
    try dsimp only
    rw [if_neg (not_not_intro hvn)]
    rw [hgen, hllm]
    try dsimp only
    rw [if_neg (by simp [htrim])]
    try dsimp only
    rw [if_neg (not_not_intro hsig)]
    rw [if_neg (not_not_intro hsyn)]
    rw [hre]
    try dsimp only
    rw [if_neg (by simp [hdup])]
    rw [hemb, hadd]
  refine ⟨_, heq, ?_⟩
  have hfind := storeFind_append_self store nm
    (mkToolMetadata (.str nm) (.str ds) (stringifyD params)
      (sanitizeGeneratedCode (trimS raw) nm) false) hdup
  have hcodene : sanitizeGeneratedCode (trimS raw) nm ≠ "" := by
    intro hzero
    rw [hzero] at hsig
    rw [validSignature] at hsig
    simp [List.isPrefixOf] at hsig
  have hjsonne : stringifyD params ≠ "" := by
    obtain ⟨c, cs, hsf, _⟩ := strfTry_head params hnu
    simp [stringifyD, hsf, String.ext_iff]
  rw [getToolDefinition]
  simp only [Bool.false_eq_true, if_false]
  rw [hfind]
  try dsimp only
  rw [if_neg (by simp [mkToolMetadata, propD, truthy])]
  rw [if_neg (by simp [mkToolMetadata, propD, truthy, hcodene, hjsonne])]
  have hpj : propD (mkToolMetadata (.str nm) (.str ds) (stringifyD params)
      (sanitizeGeneratedCode (trimS raw) nm) false) "parameters_json" =
      .str (stringifyD params) := by
    simp [mkToolMetadata, propD]
  rw [hpj]
  rw [show jsToString (.str (stringifyD params)) = stringifyD params from rfl]
  rw [jsonParse_stringifyD params hnu]
  exact ⟨_, rfl, rfl⟩

/-- C9 amended witness: a concrete undefined-free schema round-trips. -/
theorem C9_roundtrip_no_undef_witness :
    ∃ store2, createTool cenvC9 [] (.str ("t")) (.str ("d"))
        (.obj [("type", .str ("object")), ("properties", .obj [("a",
          .obj [("type", .str ("string"))])]), ("required", .arr [.str ("a")])]) =
        (.ret ("Successfully created tool: " ++ "t"), store2) ∧
      ∃ td, getToolDefinition false store2 ("t") = some td ∧
        td.parameters = .obj [("type", .str ("object")), ("properties", .obj [("a",
          .obj [("type", .str ("string"))])]), ("required", .arr [.str ("a")])] := by
  exact C9_roundtrip_no_undef cenvC9 [] ("t") ("d")
    ("function t(params) \x7b return \"x\"; \x7d") _
    (by decide) (by decide) rfl rfl (by decide) (by decide) rfl rfl rfl rfl rfl
    (by decide)

/-! C1: the executeTool string protocol. -/

/-- The failure conditions of executeTool, as enumerated by the spec: on
the reserved path, a throwing or failing required-argument scan, a
mistyped argument, or a createTool failure (raised or returned); on the
dynamic path, an unknown or corrupted tool, an internal tool, invalid
stored code, a throwing or failing required-argument validation, a
compile failure, a source that does not define the expected function, or
an exception thrown inside the stored tool. -/
def ExecFailPath (env : ExecEnv) (store : Store) (toolName : String) (args : JSVal) : Prop :=
  ((toolName == reservedName) = true ∧
    ((∃ m, scanRequiredKeys args requiredKeys = .thrown m) ∨
     (∃ k, scanRequiredKeys args requiredKeys = .ret (some k)) ∨
     ((jsTypeof (propD args "new_tool_name") == "string") &&
      (jsTypeof (propD args "new_tool_description") == "string") &&
      (jsTypeof (propD args "new_tool_parameters") == "object")) = false ∨
     (∃ m st2, createTool env.create store (propD args "new_tool_name")
        (propD args "new_tool_description") (propD args "new_tool_parameters") =
        (.thrown m, st2)) ∨
     (∃ e st2, createTool env.create store (propD args "new_tool_name")
        (propD args "new_tool_description") (propD args "new_tool_parameters") =
        (.ret e, st2) ∧ hasErrPre e = true))) ∨
  ((toolName == reservedName) = false ∧
    (getToolDefinition env.getThrows store toolName = none ∨
     ∃ td, getToolDefinition env.getThrows store toolName = some td ∧
       (truthy td.is_internal = true ∨
        (truthy td.code && (jsTypeof td.code == "string")) = false ∨
        (∃ m, checkRequired args td.parameters = .thrown m) ∨
        (∃ p, checkRequired args td.parameters = .ret (some p)) ∨
        (∃ m, env.compile = .error m) ∨
        env.run.defines = false ∨
        (∃ m, env.run.outcome = .thrown m))))

/-- On a fully successful dynamic invocation, none of the enumerated
failure conditions holds. -/
theorem ExecFailPath_external_elim (env : ExecEnv) (store : Store) (toolName : String)
    (args : JSVal) (td : ToolDef) (u : Unit) (v : JSVal)
    (hnameF : (toolName == reservedName) = false)
    (hdef : getToolDefinition env.getThrows store toolName = some td)
    (hintF : truthy td.is_internal = false)
    (hcode : (truthy td.code && (jsTypeof td.code == "string")) = true)
    (hreq : checkRequired args td.parameters = .ret none)
    (hcomp : env.compile = .ok u)
    (hdefs : env.run.defines = true)
    (hrun : env.run.outcome = .ret v) :
    ¬ ExecFailPath env store toolName args := by
  intro hfail
  rcases hfail with ⟨hf, _⟩ | ⟨_, hdis⟩
  · exact absurd hf (by simp [hnameF])
  · rcases hdis with hnone | ⟨td2, htd2, hcase⟩
    · rw [hdef] at hnone
      exact Option.noConfusion hnone
    · rw [hdef] at htd2
      injection htd2 with h2
      subst h2
      rcases hcase with hint2 | hcode2 | ⟨m, hm⟩ | ⟨p, hp⟩ | ⟨m, hm⟩ | hdf | ⟨m, hm⟩
      · exact absurd hint2 (by simp [hintF])
      · exact absurd hcode2 (by simp [hcode])
      · rw [hreq] at hm
        exact JSOutcome.noConfusion hm
      · rw [hreq] at hp
        injection hp with h3
        exact Option.noConfusion h3
      · rw [hcomp] at hm
        exact Except.noConfusion hm
      · exact absurd hdf (by simp [hdefs])
      · rw [hrun] at hm
        exact JSOutcome.noConfusion hm

/-- C1: for every oracle environment, store, tool name and args value,
executeTool returns a plain string result — no exception reaches its
caller — and on every one of the enumerated failure paths the returned
string begins with "Error:". -/
theorem C1_total_string_protocol (env : ExecEnv) (store : Store) (toolName : String)
    (args : JSVal) :
    ∃ s store2 tr, executeTool env store toolName args = (.ret (.str s), store2, tr) ∧
      (ExecFailPath env store toolName args → hasErrPre s = true) := by
  by_cases hname : (toolName == reservedName) = true
  · cases hscan : scanRequiredKeys args requiredKeys with
    | thrown m =>
      refine ⟨"Error: Failed to execute " ++ toolName ++ ". " ++ m, store, ⟨false, false⟩,
        ?_, fun _ => ?_⟩
      · simp [executeTool, hname, hscan]
      · exact hasErrPre_append ("Error: Failed to execute ") _ (by decide)
    | ret o =>
      cases o with
      | some k =>
        refine ⟨"Error: Failed to execute " ++ toolName ++ ". Missing required parameter " ++
          k ++ " for tool_creation.", store, ⟨false, false⟩, ?_, fun _ => ?_⟩
        · simp [executeTool, hname, hscan]
        · exact hasErrPre_append ("Error: Failed to execute ") _ (by decide)
      | none =>
        by_cases htc : ((jsTypeof (propD args "new_tool_name") == "string") &&
            (jsTypeof (propD args "new_tool_description") == "string") &&
            (jsTypeof (propD args "new_tool_parameters") == "object")) = true
        · rcases hct : createTool env.create store (propD args "new_tool_name")
              (propD args "new_tool_description") (propD args "new_tool_parameters") with
            ⟨s2 | m2, store2⟩
          · refine ⟨s2, store2, ⟨false, false⟩, ?_, ?_⟩
            · simp [executeTool, hname, hscan, htc, hct]
            · intro hfail
              rcases hfail with ⟨_, hdis⟩ | ⟨hf, _⟩
              · rcases hdis with ⟨m, hm⟩ | ⟨k, hk⟩ | htcf | ⟨m, st2, hm⟩ | ⟨e, st2, he, herr⟩
                · rw [hscan] at hm
                  exact JSOutcome.noConfusion hm
                · rw [hscan] at hk
                  injection hk with h3
                  exact Option.noConfusion h3
                · exact absurd htcf (by simp [htc])
                · rw [hct] at hm
                  have h3 : JSOutcome.ret s2 = JSOutcome.thrown m := congrArg Prod.fst hm
                  exact JSOutcome.noConfusion h3
                · rw [hct] at he
                  have h3 : JSOutcome.ret s2 = JSOutcome.ret e := congrArg Prod.fst he
                  injection h3 with h4
                  rw [h4]
                  exact herr
              · exact absurd hf (by simp [hname])
          · refine ⟨"Error: Failed to execute " ++ toolName ++ ". " ++ m2, store2,
              ⟨false, false⟩, ?_, fun _ => ?_⟩
            · simp [executeTool, hname, hscan, htc, hct]
            · exact hasErrPre_append ("Error: Failed to execute ") _ (by decide)
        · have htcF : ((jsTypeof (propD args "new_tool_name") == "string") &&
              (jsTypeof (propD args "new_tool_description") == "string") &&
              (jsTypeof (propD args "new_tool_parameters") == "object")) = false := by
            simpa using htc
          refine ⟨"Error: Failed to execute " ++ toolName ++
            ". Invalid parameter types for tool_creation.", store, ⟨false, false⟩,
            ?_, fun _ => ?_⟩
          · simp [executeTool, hname, hscan, htcF]
          · exact hasErrPre_append ("Error: Failed to execute ") _ (by decide)
  · have hnameF : (toolName == reservedName) = false := by simpa using hname
    cases hdef : getToolDefinition env.getThrows store toolName with
    | none =>
      refine ⟨"Error: Tool " ++ toolName ++ " not found or definition is corrupted.", store,
        ⟨false, false⟩, ?_, fun _ => ?_⟩
      · simp [executeTool, hnameF, hdef]
      · exact hasErrPre_append ("Error: Tool ") _ (by decide)
    | some td =>
      by_cases hint : truthy td.is_internal = true
      · refine ⟨"Error: Cannot execute internal tool " ++ toolName ++ " directly.", store,
          ⟨false, false⟩, ?_, fun _ => ?_⟩
        · simp [executeTool, hnameF, hdef, hint]
        · exact hasErrPre_append ("Error: Cannot execute internal tool ") _ (by decide)
      · have hintF : truthy td.is_internal = false := by simpa using hint
        by_cases hcode : (truthy td.code && (jsTypeof td.code == "string")) = true
        · cases hreq : checkRequired args td.parameters with
          | thrown m =>
            refine ⟨"Error: Failed to execute tool " ++ toolName ++
              ". Malformed code or unexpected runtime error. " ++ m, store, ⟨false, false⟩,
              ?_, fun _ => ?_⟩
            · simp [executeTool, hnameF, hdef, hintF, hcode, hreq]
            · exact hasErrPre_append ("Error: Failed to execute tool ") _ (by decide)
          | ret o =>
            cases o with
            | some p =>
              refine ⟨"Error: Failed to execute tool " ++ toolName ++
                ". Malformed code or unexpected runtime error. Missing required parameter " ++
                jsToString p ++ " for tool " ++ toolName ++ ".", store, ⟨false, false⟩,
                ?_, fun _ => ?_⟩
              · simp [executeTool, hnameF, hdef, hintF, hcode, hreq]
              · exact hasErrPre_append ("Error: Failed to execute tool ") _ (by decide)
            | none =>
              cases hcomp : env.compile with
              | error m =>
                refine ⟨"Error: Failed to execute tool " ++ toolName ++
                  ". Malformed code or unexpected runtime error. " ++ m, store, ⟨true, false⟩,
                  ?_, fun _ => ?_⟩
                · simp [executeTool, hnameF, hdef, hintF, hcode, hreq, hcomp]
                · exact hasErrPre_append ("Error: Failed to execute tool ") _ (by decide)
              | ok u =>
                by_cases hdefs : env.run.defines = true
                · cases hrun : env.run.outcome with
                  | thrown m =>
                    refine ⟨"Error: Execution failed for tool " ++ toolName ++ ": " ++ m,
                      store, ⟨true, true⟩, ?_, fun _ => ?_⟩
                    · simp [executeTool, hnameF, hdef, hintF, hcode, hreq, hcomp, hdefs, hrun]
                    · exact hasErrPre_append ("Error: Execution failed for tool ") _ (by decide)
                  | ret v =>
                    by_cases hvty : (jsTypeof v == "string") = true
                    · obtain ⟨vs, rfl⟩ := jsTypeof_string v hvty
                      refine ⟨vs, store, ⟨true, true⟩, ?_, ?_⟩
                      · simp [executeTool, hnameF, hdef, hintF, hcode, hreq, hcomp, hdefs,
                          hrun, hvty]
                      · intro hfail
                        exact absurd hfail (ExecFailPath_external_elim env store toolName args
                          td u (.str vs) hnameF hdef hintF hcode hreq hcomp hdefs hrun)
                    · have hvtyF : (jsTypeof v == "string") = false := by simpa using hvty
                      refine ⟨jsToString v, store, ⟨true, true⟩, ?_, ?_⟩
                      · simp [executeTool, hnameF, hdef, hintF, hcode, hreq, hcomp, hdefs,
                          hrun, hvtyF]
                      · intro hfail
                        exact absurd hfail (ExecFailPath_external_elim env store toolName args
                          td u v hnameF hdef hintF hcode hreq hcomp hdefs hrun)
                · have hdefsF : env.run.defines = false := by simpa using hdefs
                  refine ⟨"Error: Execution failed for tool " ++ toolName ++
                    ": Tool code did not define function " ++ toolName ++ ".", store,
                    ⟨true, false⟩, ?_, fun _ => ?_⟩
                  · simp [executeTool, hnameF, hdef, hintF, hcode, hreq, hcomp, hdefsF]
                  · exact hasErrPre_append ("Error: Execution failed for tool ") _ (by decide)
        · have hcodeF : (truthy td.code && (jsTypeof td.code == "string")) = false := by
            simpa using hcode
          refine ⟨"Error: Invalid or missing code for tool " ++ toolName ++ ".", store,
            ⟨false, false⟩, ?_, fun _ => ?_⟩
          · simp [executeTool, hnameF, hdef, hintF, hcodeF]
          · exact hasErrPre_append ("Error: Invalid or missing code for tool ") _ (by decide)

/-- Oracle environment for the C1 witness. -/
def execEnvW : ExecEnv := ⟨cenvTrivial, false, .ok (), ⟨true, .ret (.str ("ok"))⟩⟩

/-- C1 witness: at a concrete unknown tool name the protocol theorem
yields the concrete Error string. -/
theorem C1_total_string_protocol_witness :
    ∃ s store2 tr, executeTool execEnvW [] ("mystery") (.obj []) =
        (.ret (.str s), store2, tr) ∧
      (ExecFailPath execEnvW [] ("mystery") (.obj []) → hasErrPre s = true) :=
  C1_total_string_protocol execEnvW [] ("mystery") (.obj [])
